import Mathlib

/-!
Verification of the job-initialization core (`init.c`) and the buffer
allocator (`memory.c`) of the fio benchmarking engine.

The C sources are shallowly embedded: `struct thread_data` becomes the
`ThreadData` structure (restricted to the fields the verified functions
read or write); the global job table (`threads`, `thread_number`,
`max_jobs`, `def_thread`, `groupid`) becomes the `JobTable` state record;
C functions become pure Lean functions threading that state.  External
collaborators that are not part of the two source files (`stat(2)`,
`setup_rate`, `mmap`/`mlock` syscall outcomes) are parameters/oracles.
Machine integers are modelled as `Nat`; the only place where unsigned
wrap-around matters (`phys_mem - 128MiB` in `fio_pin_memory`) uses an
explicit `% 2^64`.
-/

namespace Fio

/-- Flags of the loaded io engine (`td->io_ops->flags`).  In the C code
`io_ops` is a pointer to the engine descriptor and `add_job` asserts it is
non-NULL; we model the flag set directly (`FIO_SYNCIO`, `FIO_RAWIO`,
`FIO_CPUIO`). -/
structure IoEngineFlags where
  syncio : Bool
  rawio : Bool
  cpuio : Bool
deriving DecidableEq, Repr

/-- One file of a job (`struct fio_file`): its name and the size/offset
assigned by `add_job`.  The runtime fields (`fd`, `file_map`, ...) are not
touched by the verified code paths. -/
structure FioFile where
  file_name : String
  file_size : Nat
  file_offset : Nat
deriving DecidableEq, Repr

/-- `DDIR_READ` / `DDIR_WRITE` values used by `td->ddir`. -/
def ddirRead : Nat := 0

def ddirWrite : Nat := 1

/-- `FIO_TYPE_FILE` / `FIO_TYPE_BD` / `FIO_TYPE_CHAR` file types.  The
numeric values are only compared for equality. -/
def fioTypeFile : Nat := 1

def fioTypeBD : Nat := 2

def fioTypeChar : Nat := 3

/-- Memory backing types (`enum fio_memtype`), only compared for
equality; `MEM_MALLOC` is the memset-0 value. -/
def memMalloc : Nat := 0

def memShm : Nat := 1

def memShmHuge : Nat := 2

def memMmap : Nat := 3

def memMmapHuge : Nat := 4

/-- Verify modes: `VERIFY_NONE` / `VERIFY_MD5` / `VERIFY_CRC32`. -/
def verifyNone : Nat := 0

def verifyMd5 : Nat := 1

def verifyCrc32 : Nat := 2

/-- The slice of `struct thread_data` that `init.c` and `memory.c` read or
write on the verified paths.  C ints used as booleans (`sequential`,
`iomix`, `odirect`, ...) are `Bool`; C strings that may be NULL are
`Option String`; sizes and counters are `Nat`.  Statistics accumulators,
semaphores, random-state seeds and log pointers are runtime-only and are
not consulted by any verified claim, so they are omitted. -/
structure ThreadData where
  name : Option String
  directory : Option String
  filename : Option String
  ddir : Nat
  sequential : Bool
  iomix : Bool
  ioOps : IoEngineFlags
  mem_type : Nat
  mmapfile : Option String
  verify : Nat
  write_iolog_file : Option String
  read_iolog_file : Option String
  total_file_size : Nat
  bsRead : Nat
  bsWrite : Nat
  minBsRead : Nat
  minBsWrite : Nat
  maxBsRead : Nat
  maxBsWrite : Nat
  rw_min_bs : Nat
  start_offset : Nat
  zone_size : Nat
  zone_skip : Nat
  nr_files : Nat
  nr_uniq_files : Nat
  iodepth : Nat
  numjobs : Nat
  rwmixread : Nat
  rwmixwrite : Nat
  odirect : Bool
  overwrite : Bool
  norandommap : Bool
  bs_unaligned : Bool
  stonewall : Bool
  thread_number : Nat
  groupid : Nat
  filetype : Nat
  files : List FioFile
deriving DecidableEq, Repr

/-- The all-zero record produced by `memset(td, 0, sizeof(*td))` in
`put_job`: numeric fields 0, NULL pointers `none`, false flags, empty
file list. -/
def ThreadData.zero : ThreadData where
  name := none
  directory := none
  filename := none
  ddir := 0
  sequential := false
  iomix := false
  ioOps := ⟨false, false, false⟩
  mem_type := 0
  mmapfile := none
  verify := 0
  write_iolog_file := none
  read_iolog_file := none
  total_file_size := 0
  bsRead := 0
  bsWrite := 0
  minBsRead := 0
  minBsWrite := 0
  maxBsRead := 0
  maxBsWrite := 0
  rw_min_bs := 0
  start_offset := 0
  zone_size := 0
  zone_skip := 0
  nr_files := 0
  nr_uniq_files := 0
  iodepth := 0
  numjobs := 0
  rwmixread := 0
  rwmixwrite := 0
  odirect := false
  overwrite := false
  norandommap := false
  bs_unaligned := false
  stonewall := false
  thread_number := 0
  groupid := 0
  filetype := 0
  files := []

/-- `td_read(td)`: the job's data direction is `DDIR_READ`.  The macro
lives in `fio.h` (not among the given sources); modelled from the spec's
"current I/O direction" field, consistently with how `str_rw_cb` in
`init.c` assigns `td->ddir`. -/
def tdRead (td : ThreadData) : Prop := td.ddir = ddirRead

/-- `td_rw(td)`: the workload is a mixed read/write workload.  The macro
lives in `fio.h` (not among the given sources); modelled from the spec's
"mixed" flag, consistently with how `str_rw_cb` in `init.c` assigns
`td->iomix` for `rw`/`randrw`. -/
def tdRw (td : ThreadData) : Prop := td.iomix

instance (td : ThreadData) : Decidable (tdRead td) := by unfold tdRead; infer_instance

instance (td : ThreadData) : Decidable (tdRw td) := by unfold tdRw; infer_instance

/-! ### `fixup_options` (init.c:560-616)

Each `if` block of the C function becomes one step function; `fixupOptions`
is their composition in source order. -/

/-- init.c:562-563 — derive the read fraction from the write fraction. -/
def fixupRwmix (td : ThreadData) : ThreadData :=
  if td.rwmixread = 0 ∧ td.rwmixwrite ≠ 0 then
    { td with rwmixread := 100 - td.rwmixwrite }
  else td

/-- init.c:565-569 — read iolog overrides write iolog. -/
def fixupIolog (td : ThreadData) : ThreadData :=
  if td.write_iolog_file.isSome ∧ td.read_iolog_file.isSome then
    { td with write_iolog_file := none }
  else td

/-- init.c:571-576 — synchronous engines force depth 1; otherwise a zero
depth falls back to the file count. -/
def fixupIodepth (td : ThreadData) : ThreadData :=
  if td.ioOps.syncio then { td with iodepth := 1 }
  else if td.iodepth = 0 then { td with iodepth := td.nr_files }
  else td

/-- init.c:578-582 — the zone-size reset, exactly as written in the
source: `if (td->zone_size && !td->sequential && td->nr_files == 1)`. -/
def fixupZone (td : ThreadData) : ThreadData :=
  if td.zone_size ≠ 0 ∧ ¬td.sequential ∧ td.nr_files = 1 then
    { td with zone_size := 0 }
  else td

/-- init.c:584-588 — reads need pre-created files, force overwrite. -/
def fixupOverwrite (td : ThreadData) : ThreadData :=
  if tdRead td ∨ tdRw td then { td with overwrite := true } else td

/-- init.c:590-591 — unset minimum read block size defaults to the read
block size. -/
def fixupMinBsRead (td : ThreadData) : ThreadData :=
  if td.minBsRead = 0 then { td with minBsRead := td.bsRead } else td

/-- init.c:592-593 — unset maximum read block size defaults to the read
block size. -/
def fixupMaxBsRead (td : ThreadData) : ThreadData :=
  if td.maxBsRead = 0 then { td with maxBsRead := td.bsRead } else td

/-- init.c:594-595 — unset minimum write block size defaults to the write
block size. -/
def fixupMinBsWrite (td : ThreadData) : ThreadData :=
  if td.minBsWrite = 0 then { td with minBsWrite := td.bsWrite } else td

/-- init.c:596-597 — unset maximum write block size defaults to the write
block size. -/
def fixupMaxBsWrite (td : ThreadData) : ThreadData :=
  if td.maxBsWrite = 0 then { td with maxBsWrite := td.bsWrite } else td

/-- init.c:590-597 — the four block-size bound defaults in source order. -/
def fixupBsLimits (td : ThreadData) : ThreadData :=
  fixupMaxBsWrite (fixupMinBsWrite (fixupMaxBsRead (fixupMinBsRead td)))

/-- init.c:599 — effective minimum block size across directions. -/
def fixupRwMinBs (td : ThreadData) : ThreadData :=
  { td with rw_min_bs := min td.minBsRead td.minBsWrite }

/-- init.c:601-602 — verification is disabled for read-only workloads. -/
def fixupVerifyRead (td : ThreadData) : ThreadData :=
  if tdRead td ∧ ¬tdRw td then { td with verify := verifyNone } else td

/-- init.c:604-607 — `norandommap` forces verification off. -/
def fixupNorandommap (td : ThreadData) : ThreadData :=
  if td.norandommap ∧ td.verify ≠ verifyNone then
    { td with verify := verifyNone }
  else td

/-- init.c:611-615 — O_DIRECT is cleared for character devices.  (The
`bs_unaligned` check at init.c:608-609 only logs and is omitted.) -/
def fixupOdirectChar (td : ThreadData) : ThreadData :=
  if td.filetype = fioTypeChar ∧ td.odirect then { td with odirect := false } else td

/-- `fixup_options` (init.c:560-616): the steps in source order. -/
def fixupOptions (td : ThreadData) : ThreadData :=
  fixupOdirectChar (fixupNorandommap (fixupVerifyRead (fixupRwMinBs
    (fixupBsLimits (fixupOverwrite (fixupZone (fixupIodepth
      (fixupIolog (fixupRwmix td)))))))))

/-! ### The job slot table (init.c:513-554)

`threads` is the fixed-capacity, cross-process-visible slot table,
`thread_number` the live-job count, `def_thread` the overlay-only default
record and `groupid` the global stonewall group counter.  A job handle
(`struct thread_data *`) is `Option Nat`: `none` is `&def_thread`, `some
i` is `&threads[i]`. -/

structure JobTable where
  maxJobs : Nat
  threads : List ThreadData
  threadNumber : Nat
  def_thread : ThreadData
  groupid : Nat
deriving Repr

/-- A C job pointer: `none` = `&def_thread`, `some i` = `&threads[i]`. -/
abbrev JobRef := Option Nat

/-- `get_new_job` (init.c:531-545): the global record is returned as-is;
otherwise, if the table is full, NULL; otherwise the parent is copied
into the next slot, the live count is incremented and the new record's
`thread_number` is set to the incremented count. -/
def getNewJob (global : Bool) (parent : ThreadData) (s : JobTable) :
    Option JobRef × JobTable :=
  if global then (some none, s)
  else if s.maxJobs ≤ s.threadNumber then (none, s)
  else
    (some (some s.threadNumber),
     { s with
        threads := s.threads.set s.threadNumber
          { parent with thread_number := s.threadNumber + 1 },
        threadNumber := s.threadNumber + 1 })

/-- `put_job` (init.c:547-554): releasing `&def_thread` does nothing;
otherwise the slot at index `td->thread_number - 1` is zeroed (`memset`)
and the live count decremented.  (`thread_number` is read from the
record; `- 1` is the usual truncated `Nat` subtraction, the C code never
releases a record with `thread_number == 0`.) -/
def putJob (r : JobRef) (s : JobTable) : JobTable :=
  match r with
  | none => s
  | some i =>
      { s with
        threads := s.threads.set
          ((s.threads.getD i ThreadData.zero).thread_number - 1) ThreadData.zero,
        threadNumber := s.threadNumber - 1 }

/-- Dereference a job handle. -/
def readRef (r : JobRef) (s : JobTable) : ThreadData :=
  match r with
  | none => s.def_thread
  | some i => s.threads.getD i ThreadData.zero

/-- Mutate the record a job handle points to (C writes through the
pointer go straight into the slot / into `def_thread`). -/
def modifyRef (r : JobRef) (f : ThreadData → ThreadData) (s : JobTable) : JobTable :=
  match r with
  | none => { s with def_thread := f s.def_thread }
  | some i => { s with threads := s.threads.set i (f (s.threads.getD i ThreadData.zero)) }

/-- Modelled from the spec: the default job template produced by
`fill_def_thread` (init.c:1123-1146) — `fill_default_options` itself
lives in `parse.c`, which is not among the given sources; per spec §4.1
defaults are applied by running each option descriptor's `.def` string
(from the `options[]` table in init.c:43-453) through the normal
resolution path over a zeroed record.  So: `rw=read` (ddir READ,
sequential), `ioengine=sync` (FIO_SYNCIO), `mem=malloc`, `verify=0`,
`bs=4k` (both directions), `offset=0`, `zonesize=0`, `zoneskip=0`,
`randrepeat=1` (not modelled), `nrfiles=1`, `iodepth=1`, `rwmixread=50`,
`rwmixwrite=50`, `loops=1`/`numjobs=1`, `direct=1`, `overwrite=0`;
options without a default stay at their memset-0 value. -/
def fillDefThread : ThreadData :=
  { ThreadData.zero with
    ddir := ddirRead
    sequential := true
    ioOps := ⟨true, false, false⟩
    mem_type := memMalloc
    verify := verifyNone
    bsRead := 4096
    bsWrite := 4096
    nr_files := 1
    iodepth := 1
    numjobs := 1
    rwmixread := 50
    rwmixwrite := 50
    odirect := true
    overwrite := false }

/-! ### Claim C1 — the zone-size rule -/

/-- A job whose options requested `rw=randread`-style non-sequential io
over two files with a 4KiB zone size. -/
def c1Job : ThreadData :=
  { fillDefThread with sequential := false, nr_files := 2, zone_size := 4096 }

/-- The job of the C6 counterexample: a non-synchronous engine, `nrfiles=4`
and no `iodepth` supplied, i.e. iodepth still at its option default 1. -/
def c6Job : ThreadData :=
  { fillDefThread with ioOps := ⟨false, false, false⟩, nr_files := 4 }

/-! ### Global memory pinning (memory.c:12-54)

`mlock_size` and `pinned_mem` are process-wide globals; both are modelled
in `PinState` (`pinned = true` iff `pinned_mem != NULL`).  The outcomes of
the `mmap` and `mlock` syscalls are boolean oracles; `os_phys_mem()` is
the parameter `physMem`.  All sizes are 64-bit unsigned (`unsigned long
long`), so arithmetic is taken `% 2^64`. -/

structure PinState where
  mlockSize : Nat
  pinned : Bool
deriving DecidableEq, Repr

/-- `128 * 1024 * 1024`, the reserve fio keeps unlocked (memory.c:34). -/
def mlockReserve : Nat := 128 * 1024 * 1024

/-- `fio_pin_memory` (memory.c:22-54).  Returns the C result (0 ok, 1
error) and the new global state.  With no configured size it is a no-op;
otherwise, when physical memory was detected and `mlock_size + 128MiB`
exceeds it, `mlock_size` is clamped to `phys_mem - 128MiB` (u64
arithmetic) before the anonymous map and the `mlock`; failure of either
syscall resets `pinned_mem` to NULL (after `munmap` in the `mlock`
case). -/
def fioPinMemory (physMem : Nat) (mmapOk mlockOk : Bool) (s : PinState) :
    Nat × PinState :=
  if s.mlockSize = 0 then (0, s)
  else
    let ms :=
      if physMem ≠ 0 ∧ physMem < (s.mlockSize + mlockReserve) % 2 ^ 64 then
        (physMem + 2 ^ 64 - mlockReserve) % 2 ^ 64
      else s.mlockSize
    if ¬mmapOk then (1, { mlockSize := ms, pinned := false })
    else if ¬mlockOk then (1, { mlockSize := ms, pinned := false })
    else (0, { mlockSize := ms, pinned := true })

/-- `fio_unpin_memory` (memory.c:12-20): with nothing pinned it does
nothing; otherwise it munlocks and munmaps the region and clears
`pinned_mem`. -/
def fioUnpinMemory (s : PinState) : PinState :=
  if s.pinned then { s with pinned := false } else s

/-! ### Memory-mapped buffer allocation (memory.c:84-119, 154-175)

`alloc_mem_mmap` touches the fields `mmapfd`, `orig_buffer` and reads
`mmapfile`/`orig_buffer_size`; the syscall outcomes (`open`, `ftruncate`,
`mmap`) are oracles.  Besides the C-visible results we record whether the
call closed the descriptor it opened and whether it unlinked the backing
file, which is what claims C3/C4 are about. -/

structure MmapSyscalls where
  /-- result of `open(mmapfile, O_RDWR|O_CREAT, 0644)`: `none` = -1. -/
  openFd : Option Nat
  /-- `ftruncate` succeeded. -/
  ftruncOk : Bool
  /-- `mmap` returned something other than MAP_FAILED. -/
  mmapOk : Bool
deriving DecidableEq, Repr

structure MmapAllocResult where
  /-- the C return value (0 ok, 1 error). -/
  ret : Nat
  /-- `td->mmapfd` after the call (initialized to 0 at entry). -/
  mmapfd : Nat
  /-- `td->orig_buffer != NULL` after the call. -/
  origBufferSet : Bool
  /-- the call closed the descriptor it had opened. -/
  fdClosed : Bool
  /-- the call unlinked the backing file. -/
  fileUnlinked : Bool
deriving DecidableEq, Repr

/-- `alloc_mem_mmap` (memory.c:84-119).  With a backing file: open
(failure → error, nothing to undo), then `ftruncate` (failure → error,
and the source returns *without closing the fd*), then `mmap`; on mmap
failure, when `mmapfd` is nonzero, the fd is closed and the backing file
unlinked.  Without a backing file the map is anonymous and no fd is
involved. -/
def allocMemMmap (o : MmapSyscalls) (mmapfile : Option String) : MmapAllocResult :=
  match mmapfile with
  | some _ =>
    match o.openFd with
    | none => { ret := 1, mmapfd := 0, origBufferSet := false,
                fdClosed := false, fileUnlinked := false }
    | some fd =>
      if ¬o.ftruncOk then
        { ret := 1, mmapfd := fd, origBufferSet := false,
          fdClosed := false, fileUnlinked := false }
      else if ¬o.mmapOk then
        if fd ≠ 0 then
          { ret := 1, mmapfd := fd, origBufferSet := false,
            fdClosed := true, fileUnlinked := true }
        else
          { ret := 1, mmapfd := fd, origBufferSet := false,
            fdClosed := false, fileUnlinked := false }
      else
        { ret := 0, mmapfd := fd, origBufferSet := true,
          fdClosed := false, fileUnlinked := false }
  | none =>
    if ¬o.mmapOk then
      { ret := 1, mmapfd := 0, origBufferSet := false,
        fdClosed := false, fileUnlinked := false }
    else
      { ret := 0, mmapfd := 0, origBufferSet := true,
        fdClosed := false, fileUnlinked := false }

structure FreeIoMemResult where
  unmapped : Bool
  fdClosed : Bool
  fileUnlinked : Bool
deriving DecidableEq, Repr

/-- The `MEM_MMAP`/`MEM_MMAPHUGE` branch of `free_io_mem`
(memory.c:163-170): munmap always; close, unlink and free only when a
backing file is present. -/
def freeIoMemMmap (mmapfile : Option String) : FreeIoMemResult :=
  { unmapped := true, fdClosed := mmapfile.isSome, fileUnlinked := mmapfile.isSome }

/-! ### The enumerated-string option callbacks (init.c:864-982)

Every alternative is tested with `strncmp(mem, lit, strlen(lit))`, i.e. a
match means the literal is an *initial segment* of the supplied value,
not that the two are equal. -/

/-- `strncmpPre lit s = true` iff `strncmp(s, lit, strlen(lit)) == 0`:
every character of `lit` is matched by the corresponding character of
`s`. -/
def strncmpPre : List Char → List Char → Bool
  | [], _ => true
  | _ :: _, [] => false
  | a :: as, b :: bs => a == b && strncmpPre as bs

/-- The `strncmp(mem, lit, strlen(lit)) == 0` test on strings. -/
def litMatches (lit s : String) : Bool :=
  strncmpPre lit.toList s.toList

/-- `str_rw_cb` (init.c:864-898): the data-direction option, with the
numeric aliases "0" (read) and "1" (write), tested in source order. -/
def strRwCb (td : ThreadData) (mem : String) : Nat × ThreadData :=
  if litMatches "read" mem || litMatches "0" mem then
    (0, { td with ddir := ddirRead, sequential := true })
  else if litMatches "randread" mem then
    (0, { td with ddir := ddirRead, sequential := false })
  else if litMatches "write" mem || litMatches "1" mem then
    (0, { td with ddir := ddirWrite, sequential := true })
  else if litMatches "randwrite" mem then
    (0, { td with ddir := ddirWrite, sequential := false })
  else if litMatches "rw" mem then
    (0, { td with ddir := ddirRead, iomix := true, sequential := true })
  else if litMatches "randrw" mem then
    (0, { td with ddir := ddirRead, iomix := true, sequential := false })
  else (1, td)

/-- `str_verify_cb` (init.c:900-917), with the numeric aliases "0"
(none) and "1" (md5). -/
def strVerifyCb (td : ThreadData) (mem : String) : Nat × ThreadData :=
  if litMatches "0" mem then (0, { td with verify := verifyNone })
  else if litMatches "md5" mem || litMatches "1" mem then
    (0, { td with verify := verifyMd5 })
  else if litMatches "crc32" mem then (0, { td with verify := verifyCrc32 })
  else (1, td)

/-- `get_mmap_file` (init.c:922-933): everything after the first ':',
with surrounding blanks stripped (`strip_blank_front`/`strip_blank_end`
live in parse.c, modelled as `String.trim`); NULL when there is no
':'. -/
def getMmapFile (str : String) : Option String :=
  match str.splitOn ":" with
  | [] => none
  | [_] => none
  | _ :: rest => some (String.intercalate ":" rest).trim

/-- `str_mem_cb` (init.c:935-982), for a build with `FIO_HAVE_HUGETLB`
(the Linux build; otherwise the huge variants just fail): `mmaphuge`
additionally requires a `:file` suffix, while a missing suffix on plain
`mmap` only means an anonymous mapping. -/
def strMemCb (td : ThreadData) (mem : String) : Nat × ThreadData :=
  if litMatches "malloc" mem then (0, { td with mem_type := memMalloc })
  else if litMatches "mmaphuge" mem then
    match getMmapFile mem with
    | none => (1, { td with mmapfile := none })
    | some f => (0, { td with mmapfile := some f, mem_type := memMmapHuge })
  else if litMatches "mmap" mem then
    (0, { td with mmapfile := getMmapFile mem, mem_type := memMmap })
  else if litMatches "shmhuge" mem then (0, { td with mem_type := memShmHuge })
  else if litMatches "shm" mem then (0, { td with mem_type := memShm })
  else (1, td)

/-! ### `add_job` (init.c:644-783)

The externals `add_job` calls are oracles: `stat(2)` on the job name
(giving the file kind) and `setup_rate` (not among the given sources;
only its success/failure matters here).  `fio_sem_init`, `setup_log` and
the statistics seeding touch runtime-only fields that no claim consults,
and the `fprintf` reporting is output-only; they are omitted.  In C the
engine flag word `td->io_ops->flags` lives in the shared engine
descriptor; it is modelled per-record (its value is copied around with
the record), which no claim observes. -/

/-- Outcome of a successful `stat(jobname)`. -/
structure StatKind where
  isBlk : Bool
  isChr : Bool
deriving DecidableEq, Repr

/-- External collaborators of `add_job`. -/
structure Oracle where
  /-- `stat(2)` on the job name: `none` = stat failed. -/
  statKind : String → Option StatKind
  /-- `setup_rate(td)` succeeded (its code is not among the given
  sources). -/
  setupRateOk : Bool

/-- init.c:663-669 — probe the file type: default `FIO_TYPE_FILE`,
refined by a successful `stat`. -/
def fileKindOf (o : Oracle) (jobname : String) : Nat :=
  match o.statKind jobname with
  | none => fioTypeFile
  | some k =>
    if k.isBlk then fioTypeBD else if k.isChr then fioTypeChar else fioTypeFile

/-- init.c:678-705 — build the file list: for regular files (or an
explicit filename) one entry per `nr_files`, with a `dir/` head when a
directory is configured and synthesized `jobname.thread_number.index`
names when no filename was forced; otherwise (a device without explicit
filename) a single file named after the job. -/
def genFileNames (td : ThreadData) (jobname : String) : ThreadData :=
  if td.filetype = fioTypeFile ∨ td.filename.isSome then
    let dirPart :=
      match td.directory with
      | some d => if d = "" then "" else d ++ "/"
      | none => ""
    { td with files :=
        (List.range td.nr_files).map fun k =>
          { file_name :=
              match td.filename with
              | some fn => dirPart ++ fn
              | none =>
                dirPart ++ jobname ++ "." ++ toString td.thread_number ++ "."
                  ++ toString k
            file_size := 0
            file_offset := 0 } }
  else
    { td with nr_files := 1,
              files := [{ file_name := jobname, file_size := 0, file_offset := 0 }] }

/-- init.c:707-710 — size every file to `total_file_size / nr_files` at
the configured start offset. -/
def sizeFiles (td : ThreadData) : ThreadData :=
  { td with files := td.files.map fun f =>
      { f with file_size := td.total_file_size / td.nr_files,
               file_offset := td.start_offset } }

/-- The record-level part of `add_job`'s pre-loop body (init.c:660-710):
raw-io flag for O_DIRECT, file-type probe, `fixup_options`, unique-file
count, file list and sizing. -/
def addJobTd (o : Oracle) (jobname : String) (td0 : ThreadData) : ThreadData :=
  let td := if td0.odirect then { td0 with ioOps := { td0.ioOps with rawio := true } } else td0
  let td := { td with filetype := fileKindOf o jobname }
  let td := fixupOptions td
  let td := { td with nr_uniq_files := if td.filename.isSome then 1 else td.nr_files }
  let td := genFileNames td jobname
  sizeFiles td

/-- init.c:718-719 — the stonewall group counter: a job with a barrier
that is not the very first job bumps the global counter. -/
def addJobGid (td : ThreadData) (g0 : Nat) : Nat :=
  if td.stonewall ∧ 1 < td.thread_number then g0 + 1 else g0

/-- init.c:733-734 — a job without a name inherits the section name. -/
def addJobFinalTd (jobname : String) (td : ThreadData) : ThreadData :=
  if td.name.isNone then { td with name := some jobname } else td

/-- The body of `add_job` before the duplication loop (init.c:655-759),
acting on slot `i`: the record pipeline `addJobTd`, stonewall group
bookkeeping (`addJobGid`), `setup_rate` (whose failure is the `goto err`
of this stretch) and the default job name (`addJobFinalTd`).
`_jobAddNum` only affects the (omitted) report output. -/
def addJobPre (o : Oracle) (jobname : String) (_jobAddNum : Nat) (i : Nat)
    (s : JobTable) : Bool × JobTable :=
  let td1 := addJobTd o jobname (s.threads.getD i ThreadData.zero)
  let g := addJobGid td1 s.groupid
  let td := { td1 with groupid := g }
  let s1 := { s with groupid := g, threads := s.threads.set i td }
  if ¬o.setupRateOk then (false, s1)
  else (true, { s1 with threads := s1.threads.set i (addJobFinalTd jobname td) })

/-- `add_job` on a sub-job of the duplication loop.  The loop sets the
duplicate's `numjobs` to 1 immediately before the recursive call
(init.c:772), so the recursive `add_job`'s own `while (--numjobs)` loop
runs zero times: the call is the pre-loop body plus the `err` path
(`put_job` on itself). -/
def addJobRec (o : Oracle) (jobname : String) (jobAddNum : Nat) (r : JobRef)
    (s : JobTable) : Bool × JobTable :=
  match r with
  | none => (true, s)
  | some i =>
    match addJobPre o jobname jobAddNum i s with
    | (false, s1) => (false, putJob (some i) s1)
    | (true, s1) => (true, s1)

/-- The `while (--numjobs)` loop of `add_job` (init.c:765-778), with `r`
the value of the loop counter before the decrement (so `r` iterations
remain means `r - 1` duplicates are still to be created).  Each
iteration copies the original (slot `i`) into a new slot, forces
`numjobs = 1` and clears `stonewall` on the copy, and finalizes it
recursively; a NULL slot or a failed recursive call aborts the loop with
an error (the caller then runs the `err` path).  A `numjobs` of 0 would
underflow the signed counter in C; it is modelled as an empty loop (all
claims concern `numjobs ≥ 1`). -/
def dupLoop (o : Oracle) (jobname : String) (i : Nat) :
    Nat → JobTable → Bool × JobTable
  | 0, s => (true, s)
  | 1, s => (true, s)
  | r + 2, s =>
    match getNewJob false (s.threads.getD i ThreadData.zero) s with
    | (none, s1) => (false, s1)
    | (some rf, s1) =>
      let s2 := modifyRef rf (fun td => { td with numjobs := 1, stonewall := false }) s1
      match addJobRec o jobname r rf s2 with
      | (false, s3) => (false, s3)
      | (true, s3) => dupLoop o jobname i (r + 1) s3

/-- `add_job` (init.c:644-783): the default record is not a real job and
returns immediately; otherwise the pre-loop body runs, then the
duplication loop over the record's `numjobs`; any failure reaches the
`err` label, which releases the record itself (`put_job(td)`) and
reports -1 (modelled as `false`). -/
def addJob (o : Oracle) (jobname : String) (jobAddNum : Nat) (r : JobRef)
    (s : JobTable) : Bool × JobTable :=
  match r with
  | none => (true, s)
  | some i =>
    match addJobPre o jobname jobAddNum i s with
    | (false, s1) => (false, putJob (some i) s1)
    | (true, s1) =>
      match dupLoop o jobname i ((s1.threads.getD i ThreadData.zero).numjobs) s1 with
      | (true, s2) => (true, s2)
      | (false, s2) => (false, putJob (some i) s2)

/-! ### `parse_jobs_ini` (init.c:1038-1121)

The line-oriented tokenization (`fgets`, `sscanf "[%255s]"`, comment
skipping) is the job-source collaborator of spec §6; the parser is
modelled over its output, a list of stanzas.  `parse_option` lives in
parse.c (not among the given sources); modelled from the spec: each
option of a stanza either resolves to a record update or fails, failures
are accumulated (`ret |= ...`) while later good options still apply, and
a failed option leaves the record unchanged (the job is dropped anyway,
never partially used). -/

/-- One `key = value` line of a stanza, as resolved by `parse_option`:
either a record update or an error. -/
inductive IniOpt where
  | good (f : ThreadData → ThreadData)
  | bad

/-- One `[name]` section with its option lines. -/
structure Stanza where
  name : String
  opts : List IniOpt

/-- The inner option loop (init.c:1087-1106): apply every option,
or-accumulating the error flag — the loop deliberately does not stop at
the first bad option so that all of a stanza's bad options are reported
together. -/
def applyOpts (r : JobRef) : List IniOpt → Bool → JobTable → Bool × JobTable
  | [], err, s => (err, s)
  | IniOpt.good f :: rest, err, s => applyOpts r rest err (modifyRef r f s)
  | IniOpt.bad :: rest, err, s => applyOpts r rest true s

/-- `parse_jobs_ini`'s `do { } while (!ret)` loop over the stanzas
(init.c:1059-1115).  A stanza whose name begins with "global" overlays
`def_thread`; the first non-global stanza consumes a pending stonewall
flag; if any option failed the job is dropped (`put_job`) and — because
`ret` is then nonzero — the loop exits, as it also does when `add_job`
fails or the slot table is exhausted. -/
def parseJobsIniGo (o : Oracle) : List Stanza → Bool → JobTable → Bool × JobTable
  | [], _, s => (false, s)
  | st :: rest, stonewall, s =>
    let global := litMatches "global" st.name
    match getNewJob global s.def_thread s with
    | (none, s1) => (true, s1)
    | (some r, s1) =>
      let swPair :=
        if !global && stonewall then
          (modifyRef r (fun td => { td with stonewall := true }) s1, false)
        else (s1, stonewall)
      match applyOpts r st.opts false swPair.1 with
      | (false, s3) =>
        match addJob o st.name 0 r s3 with
        | (true, s4) => parseJobsIniGo o rest swPair.2 s4
        | (false, s4) => (true, s4)
      | (true, s3) => (true, putJob r s3)

/-- `parse_jobs_ini` (init.c:1038-1121) over an already-tokenized job
file; `stonewallFlag` is the `stonewall_flag` argument separating
multiple job files.  Returns the C error result (`true` = nonzero) and
the final table state. -/
def parseJobsIni (o : Oracle) (file : List Stanza) (stonewallFlag : Bool)
    (s : JobTable) : Bool × JobTable :=
  parseJobsIniGo o file stonewallFlag s

/-- An oracle for runs where every external succeeds and the job name
names no existing file. -/
def oracleOk : Oracle := { statKind := fun _ => none, setupRateOk := true }

/-- An empty two-slot table. -/
def emptyTable2 : JobTable :=
  { maxJobs := 2, threads := [ThreadData.zero, ThreadData.zero], threadNumber := 0,
    def_thread := fillDefThread, groupid := 0 }

/-- An empty three-slot table. -/
def emptyTable3 : JobTable :=
  { maxJobs := 3,
    threads := [ThreadData.zero, ThreadData.zero, ThreadData.zero],
    threadNumber := 0, def_thread := fillDefThread, groupid := 0 }

/-! ### Claim C7 — duplicate expansion -/

/-- A two-slot table holding one job (slot 0) that asked for
`numjobs=3`. -/
def c7Start : JobTable :=
  modifyRef (some 0) (fun td => { td with numjobs := 3 })
    (getNewJob false emptyTable2.def_thread emptyTable2).2

/-- The run of `add_job` on that job: slot 1 receives the first
duplicate, then the table is full. -/
def c7Run : Bool × JobTable := addJob oracleOk "j" 0 (some 0) c7Start

/-! ### Claim C2 — a bad stanza stops the file -/

/-- A job file whose first stanza has one invalid option and whose
second stanza is entirely valid. -/
def c2File : List Stanza :=
  [{ name := "jobA", opts := [IniOpt.bad] },
   { name := "jobB", opts := [] }]

/-- The run of the parser on that file. -/
def c2Run : Bool × JobTable := parseJobsIni oracleOk c2File false emptyTable2

/-! ### Claim C10 — slot-manager bookkeeping -/

/-- Number of non-zeroed (occupied) slots. -/
def occupiedCount (s : JobTable) : Nat :=
  s.threads.countP fun t => decide (t ≠ ThreadData.zero)

/-- Acquire, acquire, release the *first* of the two jobs, acquire. -/
def c10Seq : JobTable :=
  (getNewJob false fillDefThread
    (putJob (some 0)
      (getNewJob false fillDefThread
        (getNewJob false fillDefThread emptyTable3).2).2)).2

/-- The record the pre-loop body of `add_job` leaves in slot `i` when
`setup_rate` succeeds. -/
def addJobSlotTd (o : Oracle) (n : String) (g0 : Nat) (td0 : ThreadData) :
    ThreadData :=
  addJobFinalTd n { addJobTd o n td0 with groupid := addJobGid (addJobTd o n td0) g0 }

/-- The state after one iteration of the duplication loop: the original
at slot `i` was copied into slot `threadNumber`, the copy got
`thread_number = threadNumber + 1`, `numjobs = 1` and a cleared
stonewall flag, and was then finalized in place. -/
def dupStepState (o : Oracle) (n : String) (i : Nat) (s : JobTable) : JobTable :=
  { s with
     groupid :=
       addJobGid
         (addJobTd o n
           { s.threads.getD i ThreadData.zero with
               thread_number := s.threadNumber + 1, numjobs := 1, stonewall := false })
         s.groupid,
     threads :=
       s.threads.set s.threadNumber
         (addJobSlotTd o n s.groupid
           { s.threads.getD i ThreadData.zero with
               thread_number := s.threadNumber + 1, numjobs := 1, stonewall := false }),
     threadNumber := s.threadNumber + 1 }

/-- A three-slot table holding one job (slot 0) that asked for
`numjobs=2`. -/
def c7WitnessStart : JobTable :=
  modifyRef (some 0) (fun td => { td with numjobs := 2 })
    (getNewJob false emptyTable3.def_thread emptyTable3).2

/-! ### Claim C2 — general statement -/

/-- The state after `get_new_job` acquired a slot for a copy of
`parent`. -/
def acquireState (parent : ThreadData) (s : JobTable) : JobTable :=
  { s with
     threads := s.threads.set s.threadNumber
       { parent with thread_number := s.threadNumber + 1 },
     threadNumber := s.threadNumber + 1 }

/-- The state after the pending stonewall flag was consumed
(init.c:1081-1084): when a stonewall is pending, the fresh non-global
job's barrier flag is set. -/
def stanzaState (sw : Bool) (s : JobTable) : JobTable :=
  if sw then
    modifyRef (some s.threadNumber)
      (fun td => { td with stonewall := true }) (acquireState s.def_thread s)
  else acquireState s.def_thread s

/-! ### Claim C10 — general statement -/

/-- One slot-manager operation: acquire a record (global → the default
record), or release the most recently acquired live record (global →
the default record).  The release-most-recent restriction is the
discipline under which the claimed count/occupancy invariant holds; it
is *not* guaranteed by the source — `put_job(td)` on `add_job`'s err
path (init.c:781) releases a record while later-acquired duplicates are
still live, and such an out-of-order release breaks the invariant (see
the C10 counterexample). -/
inductive SlotOp where
  | acq (global : Bool) (parent : ThreadData)
  | rel (global : Bool)

/-- Apply one operation: `acq` is `get_new_job` (a full table leaves the
state unchanged — the caller sees NULL); `rel` is `put_job` on the
default record or on the top slot (a no-op when nothing is live; the
source never releases from an empty table). -/
def stepOp : SlotOp → JobTable → JobTable
  | SlotOp.acq g p, s => (getNewJob g p s).2
  | SlotOp.rel true, s => putJob none s
  | SlotOp.rel false, s =>
      if s.threadNumber = 0 then s
      else putJob (some (s.threadNumber - 1)) s

def runOps : List SlotOp → JobTable → JobTable
  | [], s => s
  | op :: rest, s => runOps rest (stepOp op s)

/-- The slot-manager invariant: the table has its fixed capacity, the
live count never exceeds it, the first `threadNumber` slots are occupied
with `thread_number = index + 1`, and every other slot is zeroed. -/
def slotInv (s : JobTable) : Prop :=
  s.threads.length = s.maxJobs ∧
  s.threadNumber ≤ s.maxJobs ∧
  (∀ k, k < s.threadNumber →
    s.threads.getD k ThreadData.zero ≠ ThreadData.zero ∧
    (s.threads.getD k ThreadData.zero).thread_number = k + 1) ∧
  (∀ k, s.threadNumber ≤ k → k < s.maxJobs →
    s.threads.getD k ThreadData.zero = ThreadData.zero)

/-! ## Theorems -/

/-! Single-update normal forms for the fixup steps, used to push record
projections through the composition. -/

theorem fixupRwmix_eq (td : ThreadData) :
    fixupRwmix td =
      { td with rwmixread :=
          if td.rwmixread = 0 ∧ td.rwmixwrite ≠ 0 then 100 - td.rwmixwrite
          else td.rwmixread } := by
  unfold fixupRwmix; split_ifs <;> rfl

theorem fixupIolog_eq (td : ThreadData) :
    fixupIolog td =
      { td with write_iolog_file :=
          if td.write_iolog_file.isSome ∧ td.read_iolog_file.isSome then none
          else td.write_iolog_file } := by
  unfold fixupIolog; split_ifs <;> rfl

theorem fixupIodepth_eq (td : ThreadData) :
    fixupIodepth td =
      { td with iodepth :=
          if td.ioOps.syncio then 1
          else if td.iodepth = 0 then td.nr_files
          else td.iodepth } := by
  unfold fixupIodepth; split_ifs <;> rfl

theorem fixupZone_eq (td : ThreadData) :
    fixupZone td =
      { td with zone_size :=
          if td.zone_size ≠ 0 ∧ ¬td.sequential ∧ td.nr_files = 1 then 0
          else td.zone_size } := by
  unfold fixupZone; split_ifs <;> rfl

theorem fixupOverwrite_eq (td : ThreadData) :
    fixupOverwrite td =
      { td with overwrite := if tdRead td ∨ tdRw td then true else td.overwrite } := by
  unfold fixupOverwrite; split_ifs <;> rfl

theorem fixupMinBsRead_eq (td : ThreadData) :
    fixupMinBsRead td =
      { td with minBsRead := if td.minBsRead = 0 then td.bsRead else td.minBsRead } := by
  unfold fixupMinBsRead; split_ifs <;> rfl

theorem fixupMaxBsRead_eq (td : ThreadData) :
    fixupMaxBsRead td =
      { td with maxBsRead := if td.maxBsRead = 0 then td.bsRead else td.maxBsRead } := by
  unfold fixupMaxBsRead; split_ifs <;> rfl

theorem fixupMinBsWrite_eq (td : ThreadData) :
    fixupMinBsWrite td =
      { td with minBsWrite := if td.minBsWrite = 0 then td.bsWrite else td.minBsWrite } := by
  unfold fixupMinBsWrite; split_ifs <;> rfl

theorem fixupMaxBsWrite_eq (td : ThreadData) :
    fixupMaxBsWrite td =
      { td with maxBsWrite := if td.maxBsWrite = 0 then td.bsWrite else td.maxBsWrite } := by
  unfold fixupMaxBsWrite; split_ifs <;> rfl

theorem fixupVerifyRead_eq (td : ThreadData) :
    fixupVerifyRead td =
      { td with verify := if tdRead td ∧ ¬tdRw td then verifyNone else td.verify } := by
  unfold fixupVerifyRead; split_ifs <;> rfl

theorem fixupNorandommap_eq (td : ThreadData) :
    fixupNorandommap td =
      { td with verify :=
          if td.norandommap ∧ td.verify ≠ verifyNone then verifyNone else td.verify } := by
  unfold fixupNorandommap; split_ifs <;> rfl

theorem fixupOdirectChar_eq (td : ThreadData) :
    fixupOdirectChar td =
      { td with odirect :=
          if td.filetype = fioTypeChar ∧ td.odirect then false else td.odirect } := by
  unfold fixupOdirectChar; split_ifs <;> rfl

/-- How `fixup_options` resolves the io depth (init.c:571-576): a
synchronous engine forces depth 1; otherwise a depth of 0 falls back to
the file count and any other depth is kept. -/
theorem fixupOptions_iodepth (td : ThreadData) :
    (fixupOptions td).iodepth =
      if td.ioOps.syncio then 1
      else if td.iodepth = 0 then td.nr_files
      else td.iodepth := by
  simp [fixupOptions, fixupOdirectChar_eq, fixupNorandommap_eq, fixupVerifyRead_eq,
        fixupRwMinBs, fixupBsLimits, fixupMaxBsWrite_eq, fixupMinBsWrite_eq,
        fixupMaxBsRead_eq, fixupMinBsRead_eq, fixupOverwrite_eq, fixupZone_eq,
        fixupIodepth_eq, fixupIolog_eq, fixupRwmix_eq]

/-- C1 (code_bug): the source comment (init.c:578-580) and the spec both
say zoning only applies to sequential single-file workloads, but the
condition at init.c:581 reads `zone_size && !sequential && nr_files == 1`
— it zeroes the zone size only for *non-sequential single-file* jobs, so
a non-sequential job with two files (as here) retains its nonzero zone
size after fix-up, contradicting the claim that any non-sequential
workload never retains a nonzero zone size. -/
theorem c1_zone_size_retained :
    c1Job.zone_size ≠ 0 ∧ c1Job.sequential = false ∧ c1Job.nr_files = 2 ∧
      (fixupOptions c1Job).zone_size = 4096 := by
  decide

/-! ### Claim C6 — io-depth coercion -/

/-- C6 (amended): for every job, fix-up forces iodepth 1 for strictly
synchronous engines; for non-synchronous engines the file-count fallback
applies only when the record's iodepth is 0 — and since the `iodepth`
option's default is "1", a job that simply omits `iodepth` reaches fix-up
with iodepth 1, not 0. -/
theorem c6_iodepth_coercion (td : ThreadData) :
    (td.ioOps.syncio = true → (fixupOptions td).iodepth = 1) ∧
    (td.ioOps.syncio = false →
      (fixupOptions td).iodepth =
        if td.iodepth = 0 then td.nr_files else td.iodepth) := by
  constructor <;> intro h <;> simp [fixupOptions_iodepth, h]

/-- Witness for `c6_iodepth_coercion`: a default (sync-engine) job
resolves to iodepth 1, and a non-sync job with an explicit `iodepth=0`
and 4 files resolves to iodepth 4. -/
theorem c6_iodepth_coercion_witness :
    (fixupOptions fillDefThread).iodepth = 1 ∧
      (fixupOptions { fillDefThread with
        ioOps := ⟨false, false, false⟩, iodepth := 0, nr_files := 4 }).iodepth = 4 := by
  refine ⟨(c6_iodepth_coercion fillDefThread).1 rfl, ?_⟩
  have h := (c6_iodepth_coercion { fillDefThread with
    ioOps := ⟨false, false, false⟩, iodepth := 0, nr_files := 4 }).2 rfl
  simpa using h

/-- C6 (counterexample to the claim as stated): with a non-synchronous
engine, `nrfiles=4` and no `iodepth` supplied, the record reaches fix-up
with the option default iodepth = 1 (not 0), so it finalizes with
iodepth 1, not with iodepth = file count = 4 as the claim requires. -/
theorem c6_counterexample :
    c6Job.iodepth = 1 ∧ c6Job.nr_files = 4 ∧
      (fixupOptions c6Job).iodepth = 1 ∧
      (fixupOptions c6Job).iodepth ≠ c6Job.nr_files := by
  decide

/-! ### Claim C9 — verification off for sequential read-only workloads -/

/-- C9: for every job whose workload is a sequential pure-read workload
(read direction, sequential, not mixed), fix-up turns verification off
regardless of the verify mode that was supplied (init.c:601-602; the
later `norandommap` clause at init.c:604-607 can only keep it off). -/
theorem c9_verify_off_seq_read (td : ThreadData)
    (hd : td.ddir = ddirRead) (hs : td.sequential = true) (hm : td.iomix = false) :
    (fixupOptions td).verify = verifyNone := by
  simp [fixupOptions, fixupOdirectChar_eq, fixupNorandommap_eq, fixupVerifyRead_eq,
        fixupRwMinBs, fixupBsLimits, fixupMaxBsWrite_eq, fixupMinBsWrite_eq,
        fixupMaxBsRead_eq, fixupMinBsRead_eq, fixupOverwrite_eq, fixupZone_eq,
        fixupIodepth_eq, fixupIolog_eq, fixupRwmix_eq, tdRead, tdRw, hd, hm]

/-- Witness for `c9_verify_off_seq_read`: a default sequential-read job
that asked for md5 verification still finalizes with verify off. -/
theorem c9_verify_off_seq_read_witness :
    (fixupOptions { fillDefThread with verify := verifyMd5 }).verify = verifyNone :=
  c9_verify_off_seq_read { fillDefThread with verify := verifyMd5 } rfl rfl rfl

/-- C8: (i) when a lock-memory size is configured and that size plus
128MiB exceeds the detected physical memory, pinning clamps the locked
amount to exactly `physMem - 128MiB` bytes before mapping and locking
(whatever the syscalls then do); (ii) with no configured size pinning is
a no-op; (iii) unpinning when nothing is pinned is a no-op; (iv) after a
successful pin, unpinning clears the pinned state. -/
theorem c8_pin_clamp_and_unpin (ms physMem : Nat) (mmapOk mlockOk : Bool) :
    (ms ≠ 0 → physMem ≠ 0 → mlockReserve ≤ physMem → physMem < 2 ^ 64 →
      ms + mlockReserve < 2 ^ 64 → physMem < ms + mlockReserve →
      (fioPinMemory physMem mmapOk mlockOk ⟨ms, false⟩).2.mlockSize =
        physMem - mlockReserve) ∧
    (fioPinMemory physMem mmapOk mlockOk ⟨0, false⟩ = (0, ⟨0, false⟩)) ∧
    (∀ s : PinState, s.pinned = false → fioUnpinMemory s = s) ∧
    (ms ≠ 0 →
      (fioPinMemory physMem true true ⟨ms, false⟩).1 = 0 ∧
      (fioPinMemory physMem true true ⟨ms, false⟩).2.pinned = true ∧
      (fioUnpinMemory (fioPinMemory physMem true true ⟨ms, false⟩).2).pinned = false) := by
  refine ⟨?_, ?_, ?_, ?_⟩
  · intro h0 hp hr hp64 hov hgt
    have hmod : (ms + mlockReserve) % 2 ^ 64 = ms + mlockReserve := Nat.mod_eq_of_lt hov
    have hclamp : (physMem + 2 ^ 64 - mlockReserve) % 2 ^ 64 = physMem - mlockReserve := by
      omega
    simp only [fioPinMemory, h0, if_neg h0, hmod]
    have hcond : physMem ≠ 0 ∧ physMem < ms + mlockReserve := ⟨hp, hgt⟩
    cases mmapOk <;> cases mlockOk <;> simp [hcond] <;> omega
  · simp [fioPinMemory]
  · intro s hs; simp [fioUnpinMemory, hs]
  · intro h0
    simp only [fioPinMemory, if_neg h0]
    refine ⟨by simp, by simp, ?_⟩
    simp [fioUnpinMemory]

/-- Witness for `c8_pin_clamp_and_unpin` at physMem = 1GiB and a
configured lock size of 1GiB: the pin clamps to 1GiB − 128MiB =
939524096 bytes, and pin followed by unpin ends unpinned. -/
theorem c8_pin_clamp_and_unpin_witness :
    (fioPinMemory (2 ^ 30) true true ⟨2 ^ 30, false⟩).2.mlockSize = 939524096 ∧
      (fioUnpinMemory (fioPinMemory (2 ^ 30) true true ⟨2 ^ 30, false⟩).2).pinned = false := by
  have h := c8_pin_clamp_and_unpin (2 ^ 30) (2 ^ 30) true true
  refine ⟨?_, (h.2.2.2 (by decide)).2.2⟩
  have := h.1 (by decide) (by decide) (by decide) (by decide) (by decide) (by decide)
  simpa using this

/-- C3 (counterexample to the claim as stated): with a backing file whose
open (fd 3) and resize succeed but whose map fails, `alloc_mem_mmap`
returns the error *and unlinks the backing file* (memory.c:110-113) — it
is not left on disk for the caller. -/
theorem c3_counterexample :
    (allocMemMmap ⟨some 3, true, false⟩ (some "/tmp/fio.buf")).ret = 1 ∧
      (allocMemMmap ⟨some 3, true, false⟩ (some "/tmp/fio.buf")).fileUnlinked = true := by
  decide

/-- C3 (amended): for every memory-mapped allocation with a backing file
where open (returning a nonzero fd) and resize succeed but the map step
fails, the allocation returns an error, closes the descriptor *and
deletes the backing file on the spot*; explicit release (`free_io_mem`)
also deletes the backing file. -/
theorem c3_map_failure_unlinks (path : String) (fd : Nat) (hfd : fd ≠ 0) :
    (allocMemMmap ⟨some fd, true, false⟩ (some path)).ret = 1 ∧
    (allocMemMmap ⟨some fd, true, false⟩ (some path)).fdClosed = true ∧
    (allocMemMmap ⟨some fd, true, false⟩ (some path)).fileUnlinked = true ∧
    (freeIoMemMmap (some path)).fileUnlinked = true := by
  simp [allocMemMmap, freeIoMemMmap, hfd]

/-- Witness for `c3_map_failure_unlinks` at fd 3. -/
theorem c3_map_failure_unlinks_witness :
    (allocMemMmap ⟨some 3, true, false⟩ (some "f")).fileUnlinked = true :=
  (c3_map_failure_unlinks "f" 3 (by decide)).2.2.1

/-- C4 (code_bug): when the backing file was opened (fd 3) but the
`ftruncate` resize fails, `alloc_mem_mmap` reports the error while the
descriptor it opened is still open (memory.c:98-102 has no `close`),
leaking it — even though the map-failure path right below does close it.
The claim (no descriptor leak on any failing path) describes the evident
intent. -/
theorem c4_truncate_failure_leaks_fd :
    (allocMemMmap ⟨some 3, false, false⟩ (some "/tmp/fio.buf")).ret = 1 ∧
      (allocMemMmap ⟨some 3, false, false⟩ (some "/tmp/fio.buf")).mmapfd = 3 ∧
      (allocMemMmap ⟨some 3, false, false⟩ (some "/tmp/fio.buf")).fdClosed = false := by
  decide

/-- Two initial segments of the same list are comparable. -/
theorem strncmpPre_comparable :
    ∀ (c a b : List Char), strncmpPre a c = true → strncmpPre b c = true →
      strncmpPre a b = true ∨ strncmpPre b a = true := by
  intro c
  induction c with
  | nil =>
    intro a b ha hb
    cases a <;> cases b <;> simp_all [strncmpPre]
  | cons x cs ih =>
    intro a b ha hb
    cases a with
    | nil => left; simp [strncmpPre]
    | cons y as =>
      cases b with
      | nil => right; simp [strncmpPre]
      | cons z bs =>
        simp only [strncmpPre, Bool.and_eq_true, beq_iff_eq] at ha hb ⊢
        obtain ⟨hy, ha'⟩ := ha
        obtain ⟨hz, hb'⟩ := hb
        rcases ih as bs ha' hb' with h | h
        · exact Or.inl ⟨hy.trans hz.symm, h⟩
        · exact Or.inr ⟨hz.trans hy.symm, h⟩

/-- If neither of two literals is an initial segment of the other, a
string cannot match both. -/
theorem litMatches_of_excl (p q s : String)
    (hpq : strncmpPre p.toList q.toList = false)
    (hqp : strncmpPre q.toList p.toList = false)
    (h : litMatches p s = true) : litMatches q s = false := by
  by_contra hq
  rw [Bool.not_eq_false] at hq
  rcases strncmpPre_comparable s.toList p.toList q.toList h hq with hc | hc
  · rw [hpq] at hc; exact Bool.false_ne_true hc
  · rw [hqp] at hc; exact Bool.false_ne_true hc

/-- C5 (counterexample to the claim as stated): the string "readily" is
none of the allowed `rw` values `read, write, randwrite, randread, rw,
randrw` nor a numeric alias, yet `str_rw_cb` accepts it (it begins with
"read", and init.c:868 only checks `strncmp(mem, "read", 4)`). -/
theorem c5_counterexample :
    (strRwCb fillDefThread "readily").1 = 0 ∧
      "readily" ∉
        (["read", "write", "randwrite", "randread", "rw", "randrw", "0", "1"] :
          List String) := by
  decide

/-- C5 (amended): applying an enumerated-string option succeeds exactly
when one of its fixed allowed values (or numeric aliases) is a
case-sensitive *initial segment* of the raw value — `strncmp` prefix
matching in source order — not only on exact matches; for `mem=mmaphuge`
a `:file` suffix is additionally required. -/
theorem c5_enum_matching_by_strncmp (td : ThreadData) (mem : String) :
    ((strRwCb td mem).1 = 0 ↔
      (litMatches "read" mem = true ∨ litMatches "0" mem = true ∨
       litMatches "randread" mem = true ∨ litMatches "write" mem = true ∨
       litMatches "1" mem = true ∨ litMatches "randwrite" mem = true ∨
       litMatches "rw" mem = true ∨ litMatches "randrw" mem = true)) ∧
    ((strVerifyCb td mem).1 = 0 ↔
      (litMatches "0" mem = true ∨ litMatches "md5" mem = true ∨
       litMatches "1" mem = true ∨ litMatches "crc32" mem = true)) ∧
    ((strMemCb td mem).1 = 0 ↔
      (litMatches "malloc" mem = true ∨
       (litMatches "mmaphuge" mem = true ∧ (getMmapFile mem).isSome = true) ∨
       (litMatches "mmap" mem = true ∧ litMatches "mmaphuge" mem = false) ∨
       litMatches "shmhuge" mem = true ∨ litMatches "shm" mem = true)) := by
  refine ⟨?_, ?_, ?_⟩
  · unfold strRwCb
    split_ifs <;> simp_all <;> tauto
  · unfold strVerifyCb
    split_ifs <;> simp_all <;> tauto
  · have e1 : litMatches "mmaphuge" mem = true → litMatches "shmhuge" mem = false :=
      litMatches_of_excl "mmaphuge" "shmhuge" mem (by decide) (by decide)
    have e2 : litMatches "mmaphuge" mem = true → litMatches "shm" mem = false :=
      litMatches_of_excl "mmaphuge" "shm" mem (by decide) (by decide)
    unfold strMemCb
    cases hg : getMmapFile mem <;> split_ifs <;> simp_all <;> tauto

/-- C7 (counterexample to the claim as stated): `numjobs=3` in a 2-slot
table — the first duplicate is created, the second fails for lack of a
slot, and the `err` path releases only the original (`put_job(td)`,
init.c:780-782): the already-created duplicate is *retained* in slot 1
(nonzero, `numjobs` already reset to 1) instead of the partially-built
chain being released. -/
theorem c7_counterexample :
    c7Run.1 = false ∧ c7Run.2.threadNumber = 1 ∧
      (c7Run.2.threads.getD 1 ThreadData.zero).numjobs = 1 ∧
      (c7Run.2.threads.getD 1 ThreadData.zero).thread_number = 2 ∧
      c7Run.2.threads.getD 1 ThreadData.zero ≠ ThreadData.zero := by
  decide

/-- C2 (counterexample to the claim as stated): after the bad first
stanza is dropped, the `do { } while (!ret)` loop exits with `ret`
nonzero (init.c:1111-1115), so the perfectly valid second stanza is
never processed: the final table holds no job at all (had parsing
continued, `jobB` would occupy slot 0). -/
theorem c2_counterexample :
    c2Run.1 = true ∧ c2Run.2.threadNumber = 0 := by
  decide

/-- C10 (counterexample to the claim as stated): after acquire, acquire,
release-of-the-first, acquire, the live count is 2 but only one slot is
occupied — the release zeroed slot 0 and decremented the count, so the
third acquire overwrote the still-live slot 1 and slot 0 stayed zero.
The claimed count-equals-occupied invariant does not survive arbitrary
release order. -/
theorem c10_counterexample :
    c10Seq.threadNumber = 2 ∧ occupiedCount c10Seq = 1 := by
  decide

/-! ### List helpers -/

theorem getD_set_ne {α : Type _} (l : List α) {i j : Nat} (v d : α) (h : i ≠ j) :
    (l.set i v).getD j d = l.getD j d := by
  simp [List.getD_eq_getElem?_getD, List.getElem?_set_ne h]

theorem getD_set_self {α : Type _} (l : List α) {i : Nat} (v d : α)
    (h : i < l.length) :
    (l.set i v).getD i d = v := by
  simp [List.getD_eq_getElem?_getD, List.getElem?_set_self h]

/-! ### Preservation lemmas: the fields `add_job` never writes -/

theorem fixupOptions_numjobs (td : ThreadData) :
    (fixupOptions td).numjobs = td.numjobs := by
  simp [fixupOptions, fixupOdirectChar_eq, fixupNorandommap_eq, fixupVerifyRead_eq,
        fixupRwMinBs, fixupBsLimits, fixupMaxBsWrite_eq, fixupMinBsWrite_eq,
        fixupMaxBsRead_eq, fixupMinBsRead_eq, fixupOverwrite_eq, fixupZone_eq,
        fixupIodepth_eq, fixupIolog_eq, fixupRwmix_eq]

theorem fixupOptions_stonewall (td : ThreadData) :
    (fixupOptions td).stonewall = td.stonewall := by
  simp [fixupOptions, fixupOdirectChar_eq, fixupNorandommap_eq, fixupVerifyRead_eq,
        fixupRwMinBs, fixupBsLimits, fixupMaxBsWrite_eq, fixupMinBsWrite_eq,
        fixupMaxBsRead_eq, fixupMinBsRead_eq, fixupOverwrite_eq, fixupZone_eq,
        fixupIodepth_eq, fixupIolog_eq, fixupRwmix_eq]

theorem fixupOptions_thread_number (td : ThreadData) :
    (fixupOptions td).thread_number = td.thread_number := by
  simp [fixupOptions, fixupOdirectChar_eq, fixupNorandommap_eq, fixupVerifyRead_eq,
        fixupRwMinBs, fixupBsLimits, fixupMaxBsWrite_eq, fixupMinBsWrite_eq,
        fixupMaxBsRead_eq, fixupMinBsRead_eq, fixupOverwrite_eq, fixupZone_eq,
        fixupIodepth_eq, fixupIolog_eq, fixupRwmix_eq]

theorem genFileNames_numjobs (td : ThreadData) (n : String) :
    (genFileNames td n).numjobs = td.numjobs := by
  unfold genFileNames; split_ifs <;> rfl

theorem genFileNames_stonewall (td : ThreadData) (n : String) :
    (genFileNames td n).stonewall = td.stonewall := by
  unfold genFileNames; split_ifs <;> rfl

theorem genFileNames_thread_number (td : ThreadData) (n : String) :
    (genFileNames td n).thread_number = td.thread_number := by
  unfold genFileNames; split_ifs <;> rfl

theorem addJobTd_numjobs (o : Oracle) (n : String) (td : ThreadData) :
    (addJobTd o n td).numjobs = td.numjobs := by
  unfold addJobTd sizeFiles
  simp only [genFileNames_numjobs]
  rw [show ∀ x : ThreadData,
        ({ x with nr_uniq_files := if x.filename.isSome then 1 else x.nr_files } :
          ThreadData).numjobs = x.numjobs from fun _ => rfl]
  rw [fixupOptions_numjobs]
  split_ifs <;> rfl

theorem addJobTd_stonewall (o : Oracle) (n : String) (td : ThreadData) :
    (addJobTd o n td).stonewall = td.stonewall := by
  unfold addJobTd sizeFiles
  simp only [genFileNames_stonewall]
  rw [show ∀ x : ThreadData,
        ({ x with nr_uniq_files := if x.filename.isSome then 1 else x.nr_files } :
          ThreadData).stonewall = x.stonewall from fun _ => rfl]
  rw [fixupOptions_stonewall]
  split_ifs <;> rfl

theorem addJobTd_thread_number (o : Oracle) (n : String) (td : ThreadData) :
    (addJobTd o n td).thread_number = td.thread_number := by
  unfold addJobTd sizeFiles
  simp only [genFileNames_thread_number]
  rw [show ∀ x : ThreadData,
        ({ x with nr_uniq_files := if x.filename.isSome then 1 else x.nr_files } :
          ThreadData).thread_number = x.thread_number from fun _ => rfl]
  rw [fixupOptions_thread_number]
  split_ifs <;> rfl

theorem addJobFinalTd_numjobs (n : String) (td : ThreadData) :
    (addJobFinalTd n td).numjobs = td.numjobs := by
  unfold addJobFinalTd; split_ifs <;> rfl

theorem addJobFinalTd_stonewall (n : String) (td : ThreadData) :
    (addJobFinalTd n td).stonewall = td.stonewall := by
  unfold addJobFinalTd; split_ifs <;> rfl

theorem addJobFinalTd_thread_number (n : String) (td : ThreadData) :
    (addJobFinalTd n td).thread_number = td.thread_number := by
  unfold addJobFinalTd; split_ifs <;> rfl

theorem set_groupid_numjobs (td : ThreadData) (g : Nat) :
    ({ td with groupid := g } : ThreadData).numjobs = td.numjobs := rfl

theorem set_groupid_stonewall (td : ThreadData) (g : Nat) :
    ({ td with groupid := g } : ThreadData).stonewall = td.stonewall := rfl

theorem set_groupid_thread_number (td : ThreadData) (g : Nat) :
    ({ td with groupid := g } : ThreadData).thread_number = td.thread_number := rfl

theorem addJobSlotTd_numjobs (o : Oracle) (n : String) (g0 : Nat) (td0 : ThreadData) :
    (addJobSlotTd o n g0 td0).numjobs = td0.numjobs := by
  unfold addJobSlotTd
  rw [addJobFinalTd_numjobs, set_groupid_numjobs, addJobTd_numjobs]

theorem addJobSlotTd_stonewall (o : Oracle) (n : String) (g0 : Nat) (td0 : ThreadData) :
    (addJobSlotTd o n g0 td0).stonewall = td0.stonewall := by
  unfold addJobSlotTd
  rw [addJobFinalTd_stonewall, set_groupid_stonewall, addJobTd_stonewall]

theorem addJobSlotTd_thread_number (o : Oracle) (n : String) (g0 : Nat)
    (td0 : ThreadData) :
    (addJobSlotTd o n g0 td0).thread_number = td0.thread_number := by
  unfold addJobSlotTd
  rw [addJobFinalTd_thread_number, set_groupid_thread_number, addJobTd_thread_number]

/-- With `setup_rate` succeeding, the pre-loop body of `add_job`
succeeds and its whole effect is: slot `i` holds the fixed-up record
`addJobSlotTd` and the group counter is updated. -/
theorem addJobPre_ok (o : Oracle) (n : String) (jan i : Nat) (s : JobTable)
    (hOr : o.setupRateOk = true) :
    addJobPre o n jan i s =
      (true,
       { s with
          groupid := addJobGid (addJobTd o n (s.threads.getD i ThreadData.zero)) s.groupid,
          threads := s.threads.set i
            (addJobSlotTd o n s.groupid (s.threads.getD i ThreadData.zero)) }) := by
  unfold addJobPre addJobSlotTd
  rw [if_neg (by simp [hOr])]
  rw [List.set_set]

/-- `get_new_job` on a non-global job with a free slot. -/
theorem getNewJob_no_global_ok (parent : ThreadData) (s : JobTable)
    (h : s.threadNumber < s.maxJobs) :
    getNewJob false parent s =
      (some (some s.threadNumber),
       { s with
          threads := s.threads.set s.threadNumber
            { parent with thread_number := s.threadNumber + 1 },
          threadNumber := s.threadNumber + 1 }) := by
  unfold getNewJob
  rw [if_neg (by simp), if_neg (by omega)]

/-- `get_new_job` on a non-global job with the table full. -/
theorem getNewJob_full (parent : ThreadData) (s : JobTable)
    (h : s.maxJobs <= s.threadNumber) :
    getNewJob false parent s = (none, s) := by
  unfold getNewJob
  rw [if_neg (by simp), if_pos h]

/-- `add_job` on a duplicate (whose `numjobs` was just reset to 1)
succeeds under a succeeding `setup_rate` and only rewrites its own
slot and the group counter. -/
theorem addJobRec_ok (o : Oracle) (n : String) (jan i : Nat) (s : JobTable)
    (hOr : o.setupRateOk = true) :
    addJobRec o n jan (some i) s =
      (true,
       { s with
          groupid := addJobGid (addJobTd o n (s.threads.getD i ThreadData.zero)) s.groupid,
          threads := s.threads.set i
            (addJobSlotTd o n s.groupid (s.threads.getD i ThreadData.zero)) }) := by
  unfold addJobRec
  dsimp only
  rw [addJobPre_ok o n jan i s hOr]

/-- One unrolling of the duplication loop when a slot is free and
`setup_rate` succeeds. -/
theorem dupLoop_step (o : Oracle) (n : String) (i q : Nat) (s : JobTable)
    (hOr : o.setupRateOk = true) (h : s.threadNumber < s.maxJobs)
    (hlen : s.threads.length = s.maxJobs) :
    dupLoop o n i (q + 2) s = dupLoop o n i (q + 1) (dupStepState o n i s) := by
  have htn : s.threadNumber < s.threads.length := by omega
  simp only [dupLoop]
  rw [getNewJob_no_global_ok _ s h]
  dsimp only [modifyRef]
  rw [getD_set_self _ _ _ htn, List.set_set]
  rw [addJobRec_ok o n q s.threadNumber _ hOr]
  dsimp only [dupStepState]
  rw [getD_set_self _ _ _ htn, List.set_set]

theorem dupStepState_threadNumber (o : Oracle) (n : String) (i : Nat) (s : JobTable) :
    (dupStepState o n i s).threadNumber = s.threadNumber + 1 := rfl

theorem dupStepState_maxJobs (o : Oracle) (n : String) (i : Nat) (s : JobTable) :
    (dupStepState o n i s).maxJobs = s.maxJobs := rfl

theorem dupStepState_length (o : Oracle) (n : String) (i : Nat) (s : JobTable) :
    (dupStepState o n i s).threads.length = s.threads.length := by
  unfold dupStepState
  dsimp only
  rw [List.length_set]

theorem dupStepState_getD_ne (o : Oracle) (n : String) (i : Nat) (s : JobTable)
    (k : Nat) (hk : k ≠ s.threadNumber) :
    (dupStepState o n i s).threads.getD k ThreadData.zero =
      s.threads.getD k ThreadData.zero := by
  unfold dupStepState
  dsimp only
  rw [getD_set_ne _ _ _ (Ne.symm hk)]

/-- The slot a duplication-loop iteration fills: repeat count 1, no
barrier, thread number one past the old live count. -/
theorem dupStepState_new_slot (o : Oracle) (n : String) (i : Nat) (s : JobTable)
    (h : s.threadNumber < s.threads.length) :
    ((dupStepState o n i s).threads.getD s.threadNumber ThreadData.zero).numjobs = 1 ∧
    ((dupStepState o n i s).threads.getD s.threadNumber ThreadData.zero).stonewall = false ∧
    ((dupStepState o n i s).threads.getD s.threadNumber ThreadData.zero).thread_number =
      s.threadNumber + 1 := by
  unfold dupStepState
  dsimp only
  rw [getD_set_self _ _ _ h]
  refine ⟨?_, ?_, ?_⟩
  · rw [addJobSlotTd_numjobs]
  · rw [addJobSlotTd_stonewall]
  · rw [addJobSlotTd_thread_number]

/-- The duplication loop, run with `r` as the remaining counter value on
a table with room for the `r - 1` outstanding duplicates, succeeds; it
appends exactly `r - 1` records after index `threadNumber`, leaves every
other slot untouched, and each appended record has repeat count 1, a
cleared barrier flag and `thread_number = index + 1`. -/
theorem dupLoop_ok (o : Oracle) (n : String) (i : Nat) :
    ∀ (r : Nat) (s : JobTable),
      o.setupRateOk = true →
      s.threads.length = s.maxJobs →
      s.threadNumber + (r - 1) ≤ s.maxJobs →
      ∃ t : JobTable,
        dupLoop o n i r s = (true, t) ∧
        t.maxJobs = s.maxJobs ∧
        t.threads.length = s.threads.length ∧
        t.threadNumber = s.threadNumber + (r - 1) ∧
        (∀ k, k < s.threadNumber ∨ s.threadNumber + (r - 1) ≤ k →
          t.threads.getD k ThreadData.zero = s.threads.getD k ThreadData.zero) ∧
        (∀ k, s.threadNumber ≤ k → k < s.threadNumber + (r - 1) →
          (t.threads.getD k ThreadData.zero).numjobs = 1 ∧
          (t.threads.getD k ThreadData.zero).stonewall = false ∧
          (t.threads.getD k ThreadData.zero).thread_number = k + 1) := by
  intro r
  induction r using Nat.strong_induction_on with
  | _ r ih =>
    intro s hOr hlen hcap
    match r with
    | 0 =>
      exact ⟨s, rfl, rfl, rfl, by omega, fun k _ => rfl, fun k h1 h2 => by omega⟩
    | 1 =>
      exact ⟨s, rfl, rfl, rfl, by omega, fun k _ => rfl, fun k h1 h2 => by omega⟩
    | (q + 2) =>
      have hroom : s.threadNumber < s.maxJobs := by omega
      have htn : s.threadNumber < s.threads.length := by omega
      rw [dupLoop_step o n i q s hOr hroom hlen]
      have hlen' : (dupStepState o n i s).threads.length = (dupStepState o n i s).maxJobs := by
        rw [dupStepState_length, dupStepState_maxJobs, hlen]
      have hcap' :
          (dupStepState o n i s).threadNumber + (q + 1 - 1) ≤ (dupStepState o n i s).maxJobs := by
        rw [dupStepState_threadNumber, dupStepState_maxJobs]
        omega
      obtain ⟨t, ht, htm, htl, httn, hout, hin⟩ :=
        ih (q + 1) (by omega) (dupStepState o n i s) hOr hlen' hcap'
      refine ⟨t, ht, ?_, ?_, ?_, ?_, ?_⟩
      · rw [htm, dupStepState_maxJobs]
      · rw [htl, dupStepState_length]
      · rw [httn, dupStepState_threadNumber]
        omega
      · intro k hk
        have hk' : k ≠ s.threadNumber := by omega
        have : t.threads.getD k ThreadData.zero =
            (dupStepState o n i s).threads.getD k ThreadData.zero := by
          apply hout
          rw [dupStepState_threadNumber]
          omega
        rw [this, dupStepState_getD_ne o n i s k hk']
      · intro k h1 h2
        by_cases hk : k = s.threadNumber
        · have heq : t.threads.getD k ThreadData.zero =
              (dupStepState o n i s).threads.getD k ThreadData.zero := by
            apply hout
            rw [dupStepState_threadNumber]
            omega
          rw [heq, hk]
          exact dupStepState_new_slot o n i s htn
        · have h1' : (dupStepState o n i s).threadNumber ≤ k := by
            rw [dupStepState_threadNumber]; omega
          have h2' : k < (dupStepState o n i s).threadNumber + (q + 1 - 1) := by
            rw [dupStepState_threadNumber]; omega
          exact hin k h1' h2'

/-- The duplication loop on a table with too little room: it fills the
table with duplicates (each with repeat count 1, no barrier and
`thread_number = index + 1`), then fails on the next `get_new_job`;
nothing already created is released by the loop itself. -/
theorem dupLoop_fail (o : Oracle) (n : String) (i : Nat) :
    ∀ (r : Nat) (s : JobTable),
      o.setupRateOk = true →
      s.threads.length = s.maxJobs →
      s.threadNumber ≤ s.maxJobs →
      s.maxJobs < s.threadNumber + (r - 1) →
      ∃ t : JobTable,
        dupLoop o n i r s = (false, t) ∧
        t.maxJobs = s.maxJobs ∧
        t.threads.length = s.threads.length ∧
        t.threadNumber = s.maxJobs ∧
        (∀ k, k < s.threadNumber →
          t.threads.getD k ThreadData.zero = s.threads.getD k ThreadData.zero) ∧
        (∀ k, s.threadNumber ≤ k → k < s.maxJobs →
          (t.threads.getD k ThreadData.zero).numjobs = 1 ∧
          (t.threads.getD k ThreadData.zero).stonewall = false ∧
          (t.threads.getD k ThreadData.zero).thread_number = k + 1) := by
  intro r
  induction r using Nat.strong_induction_on with
  | _ r ih =>
    intro s hOr hlen htn hover
    match r with
    | 0 => exact absurd hover (by omega)
    | 1 => exact absurd hover (by omega)
    | (q + 2) =>
      by_cases hroom : s.threadNumber < s.maxJobs
      · have htnl : s.threadNumber < s.threads.length := by omega
        rw [dupLoop_step o n i q s hOr hroom hlen]
        have hlen' :
            (dupStepState o n i s).threads.length = (dupStepState o n i s).maxJobs := by
          rw [dupStepState_length, dupStepState_maxJobs, hlen]
        have htn' :
            (dupStepState o n i s).threadNumber ≤ (dupStepState o n i s).maxJobs := by
          rw [dupStepState_threadNumber, dupStepState_maxJobs]
          omega
        have hover' :
            (dupStepState o n i s).maxJobs <
              (dupStepState o n i s).threadNumber + (q + 1 - 1) := by
          rw [dupStepState_threadNumber, dupStepState_maxJobs]
          omega
        obtain ⟨t, ht, htm, htl, httn, hout, hin⟩ :=
          ih (q + 1) (by omega) (dupStepState o n i s) hOr hlen' htn' hover'
        refine ⟨t, ht, ?_, ?_, ?_, ?_, ?_⟩
        · rw [htm, dupStepState_maxJobs]
        · rw [htl, dupStepState_length]
        · rw [httn, dupStepState_maxJobs]
        · intro k hk
          have heq : t.threads.getD k ThreadData.zero =
              (dupStepState o n i s).threads.getD k ThreadData.zero := by
            apply hout
            rw [dupStepState_threadNumber]
            omega
          rw [heq, dupStepState_getD_ne o n i s k (by omega)]
        · intro k h1 h2
          by_cases hk : k = s.threadNumber
          · have heq : t.threads.getD k ThreadData.zero =
                (dupStepState o n i s).threads.getD k ThreadData.zero := by
              apply hout
              rw [dupStepState_threadNumber]
              omega
            rw [heq, hk]
            exact dupStepState_new_slot o n i s htnl
          · have h1' : (dupStepState o n i s).threadNumber ≤ k := by
              rw [dupStepState_threadNumber]; omega
            have h2' : k < (dupStepState o n i s).maxJobs := by
              rw [dupStepState_maxJobs]; omega
            exact hin k h1' h2'
      · have hfull : s.maxJobs ≤ s.threadNumber := by omega
        refine ⟨s, ?_, rfl, rfl, by omega, fun k _ => rfl, fun k h1 h2 => by omega⟩
        simp only [dupLoop]
        rw [getNewJob_full _ s hfull]

/-- C7 (amended): finalizing a job with repeat count `N` in a table with
enough room produces exactly `N` job records — the original plus `N - 1`
duplicates, each duplicate with repeat count reset to 1, barrier flag
cleared and `thread_number = slot index + 1`, while the original keeps
its own repeat count and barrier flag (so only the first record carries
a barrier).  When the table fills while creating duplicates, `add_job`
propagates the error but the `err` path releases only the record passed
to the failing call (the original's slot is zeroed): the duplicates
created by earlier loop iterations are retained, not released. -/
theorem c7_duplication (o : Oracle) (n : String) (jan i N : Nat) (s : JobTable)
    (hOr : o.setupRateOk = true)
    (hlen : s.threads.length = s.maxJobs)
    (hi : i < s.threadNumber)
    (htn : s.threadNumber ≤ s.maxJobs)
    (hN : (s.threads.getD i ThreadData.zero).numjobs = N)
    (hitn : (s.threads.getD i ThreadData.zero).thread_number = i + 1) :
    (s.threadNumber + (N - 1) ≤ s.maxJobs →
      ∃ t : JobTable,
        addJob o n jan (some i) s = (true, t) ∧
        t.threadNumber = s.threadNumber + (N - 1) ∧
        (∀ k, s.threadNumber ≤ k → k < s.threadNumber + (N - 1) →
          (t.threads.getD k ThreadData.zero).numjobs = 1 ∧
          (t.threads.getD k ThreadData.zero).stonewall = false ∧
          (t.threads.getD k ThreadData.zero).thread_number = k + 1) ∧
        (t.threads.getD i ThreadData.zero).stonewall =
          (s.threads.getD i ThreadData.zero).stonewall ∧
        (t.threads.getD i ThreadData.zero).numjobs = N) ∧
    (s.maxJobs < s.threadNumber + (N - 1) →
      ∃ u : JobTable,
        addJob o n jan (some i) s = (false, u) ∧
        u.threadNumber = s.maxJobs - 1 ∧
        u.threads.getD i ThreadData.zero = ThreadData.zero ∧
        (∀ k, s.threadNumber ≤ k → k < s.maxJobs →
          (u.threads.getD k ThreadData.zero).numjobs = 1 ∧
          (u.threads.getD k ThreadData.zero).thread_number = k + 1)) := by
  have him : i < s.threads.length := by omega
  have hpre := addJobPre_ok o n jan i s hOr
  set S1 : JobTable :=
    { s with
       groupid := addJobGid (addJobTd o n (s.threads.getD i ThreadData.zero)) s.groupid,
       threads := s.threads.set i
         (addJobSlotTd o n s.groupid (s.threads.getD i ThreadData.zero)) } with hS1
  have hS1max : S1.maxJobs = s.maxJobs := rfl
  have hS1tn : S1.threadNumber = s.threadNumber := rfl
  have hS1len : S1.threads.length = s.threads.length := by
    rw [hS1]; exact List.length_set ..
  have hS1getDi : S1.threads.getD i ThreadData.zero =
      addJobSlotTd o n s.groupid (s.threads.getD i ThreadData.zero) := by
    rw [hS1]; exact getD_set_self _ _ _ him
  have hS1getDne : ∀ k, k ≠ i →
      S1.threads.getD k ThreadData.zero = s.threads.getD k ThreadData.zero := by
    intro k hk
    rw [hS1]; exact getD_set_ne _ _ _ (Ne.symm hk)
  have hn1 : (S1.threads.getD i ThreadData.zero).numjobs = N := by
    rw [hS1getDi, addJobSlotTd_numjobs, hN]
  have hs1 : (S1.threads.getD i ThreadData.zero).stonewall =
      (s.threads.getD i ThreadData.zero).stonewall := by
    rw [hS1getDi, addJobSlotTd_stonewall]
  have htn1 : (S1.threads.getD i ThreadData.zero).thread_number = i + 1 := by
    rw [hS1getDi, addJobSlotTd_thread_number, hitn]
  constructor
  · intro hcap
    obtain ⟨t, ht, htm, htl, httn, hout, hin⟩ :=
      dupLoop_ok o n i N S1 hOr (by rw [hS1len, hS1max, hlen]) (by
        rw [hS1tn, hS1max]; exact hcap)
    have hadd : addJob o n jan (some i) s = (true, t) := by
      unfold addJob
      dsimp only
      rw [hpre]
      dsimp only
      rw [hn1, ht]
    refine ⟨t, hadd, ?_, ?_, ?_, ?_⟩
    · rw [httn, hS1tn]
    · intro k h1 h2
      exact hin k (by rw [hS1tn]; exact h1) (by rw [hS1tn]; exact h2)
    · have : t.threads.getD i ThreadData.zero = S1.threads.getD i ThreadData.zero := by
        apply hout
        left
        rw [hS1tn]
        exact hi
      rw [this, hs1]
    · have : t.threads.getD i ThreadData.zero = S1.threads.getD i ThreadData.zero := by
        apply hout
        left
        rw [hS1tn]
        exact hi
      rw [this, hn1]
  · intro hover
    obtain ⟨t, ht, htm, htl, httn, hout, hin⟩ :=
      dupLoop_fail o n i N S1 hOr (by rw [hS1len, hS1max, hlen]) (by
        rw [hS1tn, hS1max]; exact htn) (by rw [hS1tn, hS1max]; exact hover)
    have hti : t.threads.getD i ThreadData.zero = S1.threads.getD i ThreadData.zero := by
      apply hout
      rw [hS1tn]
      exact hi
    have htilen : i < t.threads.length := by
      rw [htl, hS1len]
      exact him
    have hadd : addJob o n jan (some i) s = (false, putJob (some i) t) := by
      unfold addJob
      dsimp only
      rw [hpre]
      dsimp only
      rw [hn1, ht]
    have hputeq : putJob (some i) t =
        { t with
           threads := t.threads.set
             ((t.threads.getD i ThreadData.zero).thread_number - 1) ThreadData.zero,
           threadNumber := t.threadNumber - 1 } := rfl
    have hidx : (t.threads.getD i ThreadData.zero).thread_number - 1 = i := by
      rw [hti, htn1]
      omega
    refine ⟨putJob (some i) t, hadd, ?_, ?_, ?_⟩
    · rw [hputeq]
      dsimp only
      rw [httn]
    · rw [hputeq]
      dsimp only
      rw [hidx]
      exact getD_set_self _ _ _ htilen
    · intro k h1 h2
      have hki : i ≠ k := by omega
      rw [hputeq]
      dsimp only
      rw [hidx, getD_set_ne _ _ _ hki]
      have := hin k (by rw [hS1tn]; exact h1) (by rw [hS1max] at h2 ⊢; exact h2)
      exact ⟨this.1, this.2.2⟩

/-- Witness for `c7_duplication`: `numjobs=2` in a three-slot table
finalizes successfully with two records. -/
theorem c7_duplication_witness :
    ∃ t : JobTable, addJob oracleOk "j" 0 (some 0) c7WitnessStart = (true, t) ∧
      t.threadNumber = 2 := by
  obtain ⟨t, ht, htn, -, -, -⟩ :=
    (c7_duplication oracleOk "j" 0 0 2 c7WitnessStart rfl (by decide) (by decide)
      (by decide) (by decide) (by decide)).1 (by decide)
  exact ⟨t, ht, htn⟩

/-- `getNewJob_no_global_ok`, phrased through `acquireState`. -/
theorem getNewJob_acquire (parent : ThreadData) (s : JobTable)
    (h : s.threadNumber < s.maxJobs) :
    getNewJob false parent s = (some (some s.threadNumber), acquireState parent s) := by
  rw [getNewJob_no_global_ok parent s h]
  rfl

theorem acquireState_threadNumber (parent : ThreadData) (s : JobTable) :
    (acquireState parent s).threadNumber = s.threadNumber + 1 := rfl

theorem acquireState_maxJobs (parent : ThreadData) (s : JobTable) :
    (acquireState parent s).maxJobs = s.maxJobs := rfl

theorem acquireState_length (parent : ThreadData) (s : JobTable) :
    (acquireState parent s).threads.length = s.threads.length := by
  unfold acquireState
  dsimp only
  rw [List.length_set]

theorem acquireState_getD_ne (parent : ThreadData) (s : JobTable) (j : Nat)
    (hj : j ≠ s.threadNumber) :
    (acquireState parent s).threads.getD j ThreadData.zero =
      s.threads.getD j ThreadData.zero := by
  unfold acquireState
  dsimp only
  rw [getD_set_ne _ _ _ (Ne.symm hj)]

theorem acquireState_getD_self (parent : ThreadData) (s : JobTable)
    (h : s.threadNumber < s.threads.length) :
    (acquireState parent s).threads.getD s.threadNumber ThreadData.zero =
      { parent with thread_number := s.threadNumber + 1 } := by
  unfold acquireState
  dsimp only
  rw [getD_set_self _ _ _ h]

theorem stanzaState_threadNumber (sw : Bool) (s : JobTable) :
    (stanzaState sw s).threadNumber = s.threadNumber + 1 := by
  unfold stanzaState modifyRef
  split_ifs <;> rfl

theorem stanzaState_maxJobs (sw : Bool) (s : JobTable) :
    (stanzaState sw s).maxJobs = s.maxJobs := by
  unfold stanzaState modifyRef
  split_ifs <;> rfl

theorem stanzaState_length (sw : Bool) (s : JobTable) :
    (stanzaState sw s).threads.length = s.threads.length := by
  unfold stanzaState modifyRef
  split_ifs <;> try dsimp only
  · rw [List.length_set, acquireState_length]
  · rw [acquireState_length]

theorem stanzaState_getD_ne (sw : Bool) (s : JobTable) (j : Nat)
    (hj : j ≠ s.threadNumber) :
    (stanzaState sw s).threads.getD j ThreadData.zero =
      s.threads.getD j ThreadData.zero := by
  unfold stanzaState modifyRef
  split_ifs <;> try dsimp only
  · rw [getD_set_ne _ _ _ (Ne.symm hj), acquireState_getD_ne _ _ _ hj]
  · rw [acquireState_getD_ne _ _ _ hj]

theorem stanzaState_slot_tn (sw : Bool) (s : JobTable)
    (h : s.threadNumber < s.threads.length) :
    ((stanzaState sw s).threads.getD s.threadNumber ThreadData.zero).thread_number =
      s.threadNumber + 1 := by
  unfold stanzaState modifyRef
  split_ifs <;> try dsimp only
  · have hl : s.threadNumber < (acquireState s.def_thread s).threads.length := by
      rw [acquireState_length]; exact h
    rw [getD_set_self _ _ _ hl, acquireState_getD_self _ _ h]
  · rw [acquireState_getD_self _ _ h]

/-- With the error flag already raised, the option loop reports an
error whatever the remaining options are. -/
theorem applyOpts_err (r : JobRef) :
    ∀ (opts : List IniOpt) (s : JobTable), (applyOpts r opts true s).1 = true := by
  intro opts
  induction opts with
  | nil => intro s; rfl
  | cons o rest ih =>
    intro s
    cases o with
    | good f => exact ih (modifyRef r f s)
    | bad => exact ih s

/-- A stanza containing a bad option always ends its option loop with
the error flag raised — the loop keeps going (reporting every bad
option) but the accumulated `ret` is nonzero. -/
theorem applyOpts_bad (r : JobRef) :
    ∀ (opts : List IniOpt) (s : JobTable) (e : Bool), IniOpt.bad ∈ opts →
      (applyOpts r opts e s).1 = true := by
  intro opts
  induction opts with
  | nil => intro s e h; cases h
  | cons o rest ih =>
    intro s e h
    cases o with
    | good f =>
      have : IniOpt.bad ∈ rest := by
        rcases List.mem_cons.mp h with h1 | h1
        · cases h1
        · exact h1
      exact ih (modifyRef r f s) e this
    | bad => exact applyOpts_err r rest s

/-- The option loop only writes through the job handle: the live count,
capacity, table length and all other slots are untouched. -/
theorem applyOpts_some_state (i : Nat) :
    ∀ (opts : List IniOpt) (e : Bool) (s : JobTable),
      (applyOpts (some i) opts e s).2.threadNumber = s.threadNumber ∧
      (applyOpts (some i) opts e s).2.maxJobs = s.maxJobs ∧
      (applyOpts (some i) opts e s).2.threads.length = s.threads.length ∧
      (∀ j, j ≠ i →
        (applyOpts (some i) opts e s).2.threads.getD j ThreadData.zero =
          s.threads.getD j ThreadData.zero) := by
  intro opts
  induction opts with
  | nil => intro e s; exact ⟨rfl, rfl, rfl, fun j _ => rfl⟩
  | cons o rest ih =>
    intro e s
    cases o with
    | good f =>
      simp only [applyOpts]
      obtain ⟨h1, h2, h3, h4⟩ := ih e (modifyRef (some i) f s)
      refine ⟨h1, h2, ?_, ?_⟩
      · rw [h3]; simp [modifyRef]
      · intro j hj
        rw [h4 j hj]
        dsimp only [modifyRef]
        rw [getD_set_ne _ _ _ (Ne.symm hj)]
    | bad => exact ih true s

/-- Options never write `thread_number` (no descriptor stores to it), so
the slot keeps the thread number `get_new_job` assigned. -/
theorem applyOpts_slot_tn (i : Nat) :
    ∀ (opts : List IniOpt) (e : Bool) (s : JobTable),
      (∀ f, IniOpt.good f ∈ opts → ∀ td, (f td).thread_number = td.thread_number) →
      ((applyOpts (some i) opts e s).2.threads.getD i ThreadData.zero).thread_number =
        (s.threads.getD i ThreadData.zero).thread_number := by
  intro opts
  induction opts with
  | nil => intro e s _; rfl
  | cons o rest ih =>
    intro e s hpres
    cases o with
    | good f =>
      have htail : ∀ g, IniOpt.good g ∈ rest → ∀ td, (g td).thread_number = td.thread_number :=
        fun g hg => hpres g (List.mem_cons_of_mem _ hg)
      have hstep := ih e (modifyRef (some i) f s) htail
      simp only [applyOpts]
      rw [hstep]
      dsimp only [modifyRef]
      by_cases hi : i < s.threads.length
      · rw [getD_set_self _ _ _ hi]
        exact hpres f (List.mem_cons_self _ _) _
      · rw [List.set_eq_of_length_le (Nat.le_of_not_lt hi)]
    | bad =>
      exact ih true s (fun g hg => hpres g (List.mem_cons_of_mem _ hg))

/-- One head-step of `parse_jobs_ini` on a non-global stanza with at
least one bad option: the job is dropped (`put_job`) and the loop exits
with the error — whatever stanzas follow. -/
theorem parseJobsIniGo_bad_head (o : Oracle) (st : Stanza) (L : List Stanza)
    (sw : Bool) (s : JobTable)
    (hg : litMatches "global" st.name = false)
    (hbad : IniOpt.bad ∈ st.opts)
    (hcap : s.threadNumber < s.maxJobs) :
    parseJobsIniGo o (st :: L) sw s =
      (true, putJob (some s.threadNumber)
        (applyOpts (some s.threadNumber) st.opts false (stanzaState sw s)).2) := by
  have h1 : (applyOpts (some s.threadNumber) st.opts false (stanzaState sw s)).1 = true :=
    applyOpts_bad _ _ _ _ hbad
  simp only [parseJobsIniGo]
  rw [hg, getNewJob_acquire s.def_thread s hcap]
  dsimp only
  cases sw
  · simp only [Bool.not_false, Bool.and_false, Bool.false_eq_true, if_false]
    rw [show stanzaState false s = acquireState s.def_thread s from by
      unfold stanzaState; simp] at h1 ⊢
    split
    · next s3 heq =>
        rw [heq] at h1
        simp at h1
    · next s3 heq =>
        rw [heq]
  · simp only [Bool.not_false, Bool.and_true, eq_self_iff_true, if_true]
    rw [show stanzaState true s =
          modifyRef (some s.threadNumber)
            (fun td => { td with stonewall := true }) (acquireState s.def_thread s) from by
      unfold stanzaState; simp] at h1 ⊢
    split
    · next s3 heq =>
        rw [heq] at h1
        simp at h1
    · next s3 heq =>
        rw [heq]

/-- C2 (amended): when a stanza of a job file has at least one invalid
option value, that job is dropped — its slot is reclaimed and zeroed,
never finalized, the live count is back where it was, no other slot is
touched, and (because the option loop ran to the end) all of the
stanza's bad options were reported together — but `parse_jobs_ini` then
returns the error instead of continuing: the outcome is the same
whatever stanzas follow, so later job definitions in the file are not
processed.  (The hypothesis on the good options reflects that no option
descriptor stores to `thread_number`.) -/
theorem c2_bad_stanza_drops_and_stops (o : Oracle) (st : Stanza)
    (rest rest2 : List Stanza) (sw : Bool) (s : JobTable)
    (hg : litMatches "global" st.name = false)
    (hbad : IniOpt.bad ∈ st.opts)
    (hpres : ∀ f, IniOpt.good f ∈ st.opts →
      ∀ td, (f td).thread_number = td.thread_number)
    (hcap : s.threadNumber < s.maxJobs)
    (hlen : s.threads.length = s.maxJobs) :
    (parseJobsIniGo o (st :: rest) sw s).1 = true ∧
    (parseJobsIniGo o (st :: rest) sw s).2.threadNumber = s.threadNumber ∧
    (parseJobsIniGo o (st :: rest) sw s).2.threads.getD s.threadNumber ThreadData.zero =
      ThreadData.zero ∧
    (∀ j, j ≠ s.threadNumber →
      (parseJobsIniGo o (st :: rest) sw s).2.threads.getD j ThreadData.zero =
        s.threads.getD j ThreadData.zero) ∧
    parseJobsIniGo o (st :: rest) sw s = parseJobsIniGo o (st :: rest2) sw s := by
  have hmain := parseJobsIniGo_bad_head o st rest sw s hg hbad hcap
  have hmain2 := parseJobsIniGo_bad_head o st rest2 sw s hg hbad hcap
  have htnl : s.threadNumber < s.threads.length := by omega
  obtain ⟨ha1, ha2, ha3, ha4⟩ :=
    applyOpts_some_state s.threadNumber st.opts false (stanzaState sw s)
  have hslot := applyOpts_slot_tn s.threadNumber st.opts false (stanzaState sw s) hpres
  have htn3 :
      (((applyOpts (some s.threadNumber) st.opts false
        (stanzaState sw s)).2.threads.getD s.threadNumber ThreadData.zero)).thread_number =
        s.threadNumber + 1 := by
    rw [hslot, stanzaState_slot_tn sw s htnl]
  have hput : putJob (some s.threadNumber)
      (applyOpts (some s.threadNumber) st.opts false (stanzaState sw s)).2 =
      { (applyOpts (some s.threadNumber) st.opts false (stanzaState sw s)).2 with
         threads := (applyOpts (some s.threadNumber) st.opts false
           (stanzaState sw s)).2.threads.set s.threadNumber ThreadData.zero,
         threadNumber := (applyOpts (some s.threadNumber) st.opts false
           (stanzaState sw s)).2.threadNumber - 1 } := by
    unfold putJob
    dsimp only
    rw [htn3, Nat.add_sub_cancel]
  have hlen3 : s.threadNumber <
      (applyOpts (some s.threadNumber) st.opts false (stanzaState sw s)).2.threads.length := by
    rw [ha3, stanzaState_length]
    exact htnl
  refine ⟨by rw [hmain], ?_, ?_, ?_, by rw [hmain, hmain2]⟩
  · rw [hmain, hput]
    dsimp only
    rw [ha1, stanzaState_threadNumber]
    omega
  · rw [hmain, hput]
    dsimp only
    exact getD_set_self _ _ _ hlen3
  · intro j hj
    rw [hmain, hput]
    dsimp only
    rw [getD_set_ne _ _ _ (Ne.symm hj), ha4 j hj, stanzaState_getD_ne sw s j hj]

/-- Witness for `c2_bad_stanza_drops_and_stops` on the concrete two-
stanza file of the C2 counterexample. -/
theorem c2_bad_stanza_witness :
    (parseJobsIniGo oracleOk
      [⟨"jobA", [IniOpt.bad]⟩, ⟨"jobB", []⟩] false emptyTable2).1 = true ∧
    (parseJobsIniGo oracleOk
      [⟨"jobA", [IniOpt.bad]⟩, ⟨"jobB", []⟩] false emptyTable2).2.threadNumber = 0 := by
  have h := c2_bad_stanza_drops_and_stops oracleOk ⟨"jobA", [IniOpt.bad]⟩
    [⟨"jobB", []⟩] [] false emptyTable2 (by decide) (List.mem_singleton_self _)
    (by
      intro f hf
      exact absurd (List.mem_singleton.mp hf) (by intro hc; cases hc))
    (by decide) (by decide)
  exact ⟨h.1, by rw [h.2.1]; rfl⟩

theorem stepOp_inv (op : SlotOp) (s : JobTable) (h : slotInv s) :
    slotInv (stepOp op s) := by
  obtain ⟨hlen, htn, hocc, hzero⟩ := h
  cases op with
  | acq g p =>
    cases g with
    | true =>
      show slotInv (getNewJob true p s).2
      rw [show getNewJob true p s = (some none, s) from by unfold getNewJob; simp]
      exact ⟨hlen, htn, hocc, hzero⟩
    | false =>
      show slotInv (getNewJob false p s).2
      by_cases hfull : s.maxJobs ≤ s.threadNumber
      · rw [getNewJob_full p s hfull]
        exact ⟨hlen, htn, hocc, hzero⟩
      · rw [getNewJob_acquire p s (by omega)]
        have htnl : s.threadNumber < s.threads.length := by omega
        refine ⟨?_, ?_, ?_, ?_⟩
        · rw [acquireState_length, acquireState_maxJobs, hlen]
        · rw [acquireState_threadNumber, acquireState_maxJobs]
          omega
        · intro k hk
          rw [acquireState_threadNumber] at hk
          by_cases hke : k = s.threadNumber
          · rw [hke, acquireState_getD_self p s htnl]
            constructor
            · intro heq
              have := congrArg ThreadData.thread_number heq
              simp [ThreadData.zero] at this
            · rfl
          · have hk' : k < s.threadNumber := by omega
            rw [acquireState_getD_ne p s k hke]
            exact hocc k hk'
        · intro k h1 h2
          rw [acquireState_threadNumber] at h1
          rw [acquireState_maxJobs] at h2
          rw [acquireState_getD_ne p s k (by omega)]
          exact hzero k (by omega) h2
  | rel g =>
    cases g with
    | true => exact ⟨hlen, htn, hocc, hzero⟩
    | false =>
      show slotInv (if s.threadNumber = 0 then s else putJob (some (s.threadNumber - 1)) s)
      by_cases h0 : s.threadNumber = 0
      · rw [if_pos h0]
        exact ⟨hlen, htn, hocc, hzero⟩
      · rw [if_neg h0]
        have htop := hocc (s.threadNumber - 1) (by omega)
        have hidx : ((s.threads.getD (s.threadNumber - 1) ThreadData.zero).thread_number - 1) =
            s.threadNumber - 1 := by
          rw [htop.2]
          omega
        have hput : putJob (some (s.threadNumber - 1)) s =
            { s with
               threads := s.threads.set (s.threadNumber - 1) ThreadData.zero,
               threadNumber := s.threadNumber - 1 } := by
          unfold putJob
          dsimp only
          rw [hidx]
        rw [hput]
        have htl : s.threadNumber - 1 < s.threads.length := by omega
        refine ⟨?_, ?_, ?_, ?_⟩
        · dsimp only
          rw [List.length_set, hlen]
        · dsimp only
          omega
        · intro k hk
          dsimp only at hk ⊢
          rw [getD_set_ne _ _ _ (by omega)]
          exact hocc k (by omega)
        · intro k h1 h2
          dsimp only at h1 h2 ⊢
          by_cases hke : k = s.threadNumber - 1
          · rw [hke]
            exact getD_set_self _ _ _ htl
          · rw [getD_set_ne _ _ _ (by omega)]
            exact hzero k (by omega) h2

theorem runOps_inv (ops : List SlotOp) (s : JobTable) (h : slotInv s) :
    slotInv (runOps ops s) := by
  induction ops generalizing s with
  | nil => exact h
  | cons op rest ih => exact ih (stepOp op s) (stepOp_inv op s h)

/-- A list whose first `n` entries are nonzero and whose remaining
entries are zero has exactly `n` occupied entries. -/
theorem countP_of_front_occupied :
    ∀ (l : List ThreadData) (n : Nat), n ≤ l.length →
      (∀ k, k < n → l.getD k ThreadData.zero ≠ ThreadData.zero) →
      (∀ k, n ≤ k → k < l.length → l.getD k ThreadData.zero = ThreadData.zero) →
      l.countP (fun t => decide (t ≠ ThreadData.zero)) = n := by
  intro l
  induction l with
  | nil =>
    intro n hn _ _
    have h0 : n = 0 := by simpa using hn
    rw [h0]
    rfl
  | cons a l ih =>
    intro n hn hocc hzero
    rw [List.countP_cons]
    cases n with
    | zero =>
      have ha : a = ThreadData.zero := hzero 0 (by omega) (by simp)
      have hpa : decide (a ≠ ThreadData.zero) = false := by
        rw [ha]; simp
      rw [hpa]
      have hrec : List.countP (fun t => decide (t ≠ ThreadData.zero)) l = 0 := by
        refine ih 0 (by omega) (fun k hk => absurd hk (by omega)) ?_
        intro k _ hk
        have h3 := hzero (k + 1) (by omega) (by simpa using Nat.succ_lt_succ hk)
        simpa using h3
      rw [hrec]
      simp
    | succ m =>
      have ha : a ≠ ThreadData.zero := by
        have := hocc 0 (by omega)
        simpa using this
      have hpa : decide (a ≠ ThreadData.zero) = true := by
        simp [ha]
      rw [hpa]
      have hrec : List.countP (fun t => decide (t ≠ ThreadData.zero)) l = m := by
        refine ih m (by simpa using hn) ?_ ?_
        · intro k hk
          have := hocc (k + 1) (by omega)
          simpa using this
        · intro k h1 h2
          have := hzero (k + 1) (by omega) (by simpa using Nat.succ_lt_succ h2)
          simpa using this
      rw [hrec]
      simp

/-- C10 (amended): the per-operation behaviours are as claimed, but the
"after any sequence" conclusion is false in general (see the
counterexample) and holds only conditionally: when each release targets
the most recently acquired live job, every sequence of acquires and
releases preserves the slot-manager invariant — the live count equals
the number of occupied slots and each occupied slot at index `i` holds
thread number `i + 1` — and acquiring or releasing the default/global
record touches no slot.  The source itself does not always release in
that order: `put_job(td)` on `add_job`'s err path (init.c:781) releases
the original while later-acquired duplicates are still live, which is
exactly an invariant-breaking release. -/
theorem c10_lifo_invariant (ops : List SlotOp) (s : JobTable) (h : slotInv s) :
    slotInv (runOps ops s) ∧
    occupiedCount (runOps ops s) = (runOps ops s).threadNumber ∧
    (∀ k, k < (runOps ops s).threadNumber →
      ((runOps ops s).threads.getD k ThreadData.zero).thread_number = k + 1) ∧
    (∀ (p : ThreadData) (u : JobTable), (getNewJob true p u).2 = u) ∧
    (∀ u : JobTable, putJob none u = u) := by
  have hinv := runOps_inv ops s h
  obtain ⟨hlen, htn, hocc, hzero⟩ := hinv
  refine ⟨⟨hlen, htn, hocc, hzero⟩, ?_, fun k hk => (hocc k hk).2, ?_, fun u => rfl⟩
  · exact countP_of_front_occupied _ _ (by omega) (fun k hk => (hocc k hk).1)
      (fun k h1 h2 => hzero k h1 (by omega))
  · intro p u
    rw [show getNewJob true p u = (some none, u) from by unfold getNewJob; simp]

/-- The empty three-slot table satisfies the slot invariant. -/
theorem emptyTable3_inv : slotInv emptyTable3 := by
  refine ⟨rfl, by decide, ?_, ?_⟩
  · intro k hk
    rw [show emptyTable3.threadNumber = 0 from rfl] at hk
    exact absurd hk (by omega)
  · intro k _ _
    rcases k with _ | _ | _ | m <;> rfl

/-- Witness for `c10_lifo_invariant`: acquire twice and release the most
recent job — one slot stays occupied and the count agrees. -/
theorem c10_lifo_invariant_witness :
    occupiedCount (runOps
      [SlotOp.acq false fillDefThread, SlotOp.acq false fillDefThread,
       SlotOp.rel false] emptyTable3) =
    (runOps
      [SlotOp.acq false fillDefThread, SlotOp.acq false fillDefThread,
       SlotOp.rel false] emptyTable3).threadNumber :=
  (c10_lifo_invariant
    [SlotOp.acq false fillDefThread, SlotOp.acq false fillDefThread,
     SlotOp.rel false] emptyTable3 emptyTable3_inv).2.1

end Fio
